import Mathlib

/-!
Verification development for the message-relay core of a WhatsApp-compatible
client library (LID/PN identity mapping, Signal session management, device
fan-out, relay stanza assembly).

The definitions below are a shallow embedding of the program:
  - the JID helpers of the external WABinary module (not part of the sources
    at hand) are modelled from the specification, section 3 and the glossary;
  - the LID mapping store is embedded from the LIDMappingStore class;
  - the Signal repository operations (validateSession, deleteSession,
    migrateSession) and the signal storage binding (loadSession with
    LID address resolution) are embedded from lib/Signal/libsignal.js;
  - assertSessions, createParticipantNodes, the sender-key fan-out loop and
    the direct 1:1 stanza assembly are embedded from
    src/Socket/messages-send.ts.

State is passed explicitly; fallible code returns Except; key-store writes
performed by migrateSession are additionally recorded in an event trace so
that atomicity and ordering claims can be stated.
-/

/-! ## Character-level string helpers (kernel-reducible replacements for
    the JavaScript string operations used by the source) -/

def chars (s : String) : List Char := s.data

def ofChars (l : List Char) : String := ⟨l⟩

/-- Split a character list at every occurrence of a character, like the
JavaScript split method with a one-character separator. -/
def splitOnChar (c : Char) : List Char → List (List Char)
  | [] => [[]]
  | x :: xs =>
    if x = c then [] :: splitOnChar c xs
    else
      match splitOnChar c xs with
      | [] => [[x]]
      | y :: ys => (x :: y) :: ys

def splitStr (c : Char) (s : String) : List String :=
  (splitOnChar c (chars s)).map ofChars

def containsChar (s : String) (c : Char) : Bool :=
  (chars s).contains c

/-- Join string pieces with a separator character (inverse of splitStr,
used to rebuild a server name containing the separator). -/
def joinStr (c : Char) : List String → String
  | [] => ""
  | [x] => x
  | x :: xs => x ++ String.singleton c ++ joinStr c xs

def digitVal (c : Char) : Nat := c.toNat - '0'.toNat

def digitsToNatAux : Nat → List Char → Nat
  | acc, [] => acc
  | acc, c :: cs => digitsToNatAux (acc * 10 + digitVal c) cs

/-- JavaScript Number conversion restricted to digit strings: none models NaN
(any non-digit character, or the empty string handled by callers). -/
def jsNumberNat (s : String) : Option Nat :=
  let l := chars s
  if l.isEmpty then none
  else if l.all Char.isDigit then some (digitsToNatAux 0 l) else none

/-- JavaScript parseInt: parses the longest digit prefix, none models NaN. -/
def jsParseInt (s : String) : Option Nat :=
  let ds := (chars s).takeWhile Char.isDigit
  if ds.isEmpty then none else some (digitsToNatAux 0 ds)

/-! ## JID model

Modelled from the spec: the WABinary module is not among the sources; the
spec (section 3, glossary) defines a JID as user[:device]@server with four
recognized servers, a non-negative integer device that may be omitted when
zero, a domain-type tag, and a signal user of the form user_domainTypeInt
for non-regular domains (the LID domain-type integer is 1, as pinned by the
spec scenario writing session keys L_1.device). -/

structure DecodedJid where
  user : String
  device : Option Nat
  server : String
  domainType : Nat
deriving DecidableEq, Repr

/-- Modelled from the spec: domain-type tags for the four recognized servers
(regular = 0, lid = 1, hosted = 2, hosted.lid = 3). -/
def domainTypeOfServer (s : String) : Nat :=
  if s = "lid" then 1
  else if s = "hosted" then 2
  else if s = "hosted.lid" then 3
  else 0

/-- Modelled from the spec: decode user[:device]@server; the user part is
taken before the first colon and stripped at the first underscore (agent
part), the device is the digit string after the colon (none when absent,
empty, or not a number). Fails when the string has no at-sign. -/
def jidDecode (jid : String) : Option DecodedJid :=
  match splitStr '@' jid with
  | [] => none
  | [_] => none
  | userCombined :: rest =>
    let server := joinStr '@' rest
    let userParts := splitStr ':' userCombined
    let userAgent := userParts.headD ""
    let device : Option Nat :=
      match userParts with
      | _ :: d :: _ => if d = "" then none else jsNumberNat d
      | _ => none
    let user := (splitStr '_' userAgent).headD ""
    some { user := user, device := device, server := server,
           domainType := domainTypeOfServer server }

/-- Modelled from the spec: encode a JID; a zero or absent device is omitted
in wire form. -/
def jidEncode (user server : String) (device : Option Nat) : String :=
  user ++
    (match device with
     | some d => if d = 0 then "" else ":" ++ toString d
     | none => "") ++ "@" ++ server

/-- Modelled from the spec: a PN-addressed user (regular phone-number
domain). -/
def isPnUser (jid : String) : Bool :=
  match jidDecode jid with
  | some d => d.server = "s.whatsapp.net"
  | none => false

/-- Modelled from the spec: a LID-addressed user. -/
def isLidUser (jid : String) : Bool :=
  match jidDecode jid with
  | some d => d.server = "lid"
  | none => false

/-- Modelled from the spec: a hosted phone-number user. -/
def isHostedPnUser (jid : String) : Bool :=
  match jidDecode jid with
  | some d => d.server = "hosted"
  | none => false

/-- Modelled from the spec: a hosted LID user. -/
def isHostedLidUser (jid : String) : Bool :=
  match jidDecode jid with
  | some d => d.server = "hosted.lid"
  | none => false

/-- Modelled from the spec: normalize to a user-level JID on the canonical
server (lid stays lid, everything else becomes the regular PN server). -/
def jidNormalizedUser (jid : String) : String :=
  match jidDecode jid with
  | none => ""
  | some d => jidEncode d.user (if d.server = "lid" then "lid" else "s.whatsapp.net") none

/-- Modelled from the spec: transfer the source JID device onto the target
LID identity, preserving the device number and choosing the server by the
device-99 rule (99 gives hosted.lid, anything else gives lid). -/
def transferDevice (fromJid toJid : String) : String :=
  match jidDecode fromJid, jidDecode toJid with
  | some f, some t =>
    let d := f.device.getD 0
    jidEncode t.user (if d = 99 then "hosted.lid" else "lid") (some d)
  | _, _ => toJid

example : jidDecode "7@s.whatsapp.net" =
    some { user := "7", device := none, server := "s.whatsapp.net", domainType := 0 } := by
  decide

example : jidDecode "7:2@s.whatsapp.net" =
    some { user := "7", device := some 2, server := "s.whatsapp.net", domainType := 0 } := by
  decide

example : jidDecode "8_1:99@hosted.lid" =
    some { user := "8", device := some 99, server := "hosted.lid", domainType := 3 } := by
  decide

example : transferDevice "7:2@s.whatsapp.net" "8@lid" = "8:2@lid" := by decide

example : transferDevice "7:99@hosted" "8@lid" = "8:99@hosted.lid" := by decide

example : isPnUser "7@s.whatsapp.net" = true ∧ isLidUser "8@lid" = true := by decide

/-! ## Signal protocol addresses (lib/Signal/libsignal.js, jidToSignalProtocolAddress) -/

structure ProtocolAddress where
  user : String
  deviceId : Nat
deriving DecidableEq, Repr

def ProtocolAddress.addrStr (a : ProtocolAddress) : String :=
  a.user ++ "." ++ toString a.deviceId

/-- Embeds jidToSignalProtocolAddress: decode failure, an empty user, or a
device 99 on a non-hosted server raise; the signal user carries the
domain-type suffix for non-regular domains. -/
def jidToSignalProtocolAddress (jid : String) : Except String ProtocolAddress :=
  match jidDecode jid with
  | none => .error "invalid jid"
  | some d =>
    if d.user = "" then .error "empty user"
    else if d.device = some 99 ∧ d.server ≠ "hosted" ∧ d.server ≠ "hosted.lid" then
      .error "non-hosted device 99"
    else
      .ok { user := if d.domainType ≠ 0 then d.user ++ "_" ++ toString d.domainType else d.user,
            deviceId := d.device.getD 0 }

/-! ## Session records

The Signal session primitive (record serialization, open-session test) is an
external collaborator; it is abstracted as a record carrying an open-session
flag and an opaque payload, with serialize and deserialize as mutually
inverse identities. -/

structure SessionRecord where
  openSession : Bool
  payload : Nat
deriving DecidableEq, Repr

def SessionRecord.serialize (s : SessionRecord) : SessionRecord := s

def SessionRecord.deserialize (s : SessionRecord) : SessionRecord := s

def SessionRecord.haveOpenSession (s : SessionRecord) : Bool := s.openSession

/-! ## Key store and cache state -/

structure PnLidPair where
  pn : String
  lid : String
deriving DecidableEq, Repr

/-- The shared state: key-store columns (session, lid-mapping, device-list)
and the in-memory caches (LID mapping cache in both directions, the
migrated-session cache, the peer-sessions cache). TTL expiry is real-time
behaviour and is abstracted to plain membership. -/
structure RepoState where
  sessionCol : String → Option SessionRecord
  lidMappingCol : String → Option String
  deviceListCol : String → Option (List String)
  mapCachePn : String → Option String
  mapCacheLid : String → Option String
  migratedCache : String → Bool
  peerSessionsCache : String → Option Bool

def setFun {α : Type} (f : String → Option α) (k : String) (v : α) : String → Option α :=
  fun x => if x = k then some v else f x

def delFun {α : Type} (f : String → Option α) (k : String) : String → Option α :=
  fun x => if x = k then none else f x

/-- JavaScript object insert: replace the value in place when the key exists
(keeping first-insertion order), append otherwise. -/
def setAssoc {α : Type} (l : List (String × α)) (k : String) (v : α) : List (String × α) :=
  if l.any (fun p => p.1 = k) then l.map (fun p => if p.1 = k then (k, v) else p)
  else l ++ [(k, v)]

def lookupAssoc {α : Type} (l : List (String × α)) (k : String) : Option α :=
  (l.find? (fun p => p.1 = k)).map (fun p => p.2)

/-- Push a device onto the per-key list (usyncFetch accumulation). -/
def pushAssoc (l : List (String × List Nat)) (k : String) (d : Nat) : List (String × List Nat) :=
  if l.any (fun p => p.1 = k) then l.map (fun p => if p.1 = k then (p.1, p.2 ++ [d]) else p)
  else l ++ [(k, [d])]

def assocValues {α : Type} (l : List (String × α)) : List α := l.map (fun p => p.2)

/-- Sequential map with error propagation (the awaited per-element loop of
the source, stopping at the first thrown error). -/
def mapExcept {α β : Type} (f : α → Except String β) : List α → Except String (List β)
  | [] => .ok []
  | x :: xs =>
    match f x with
    | .error e => .error e
    | .ok y =>
      match mapExcept f xs with
      | .error e => .error e
      | .ok ys => .ok (y :: ys)

/-- The host-supplied PN-to-LID resolver (USync call); none models a null or
missing result. -/
def Resolver : Type := List String → Option (List PnLidPair)

/-! ## LID mapping store (LIDMappingStore) -/

/-- Embeds one iteration of the per-pair loop of storeLIDPNMappings. An
invalid pair shape (not exactly one LID side and one PN side) is skipped
with a warning; a decode failure returns from the whole method (none);
an entry equal to the already stored mapping is skipped; cache fills done
while checking the database persist. -/
def storeStep (st : RepoState) (pair : PnLidPair) (acc : List (String × String)) :
    Option (RepoState × List (String × String)) :=
  if ¬((isLidUser pair.lid ∧ isPnUser pair.pn) ∨ (isPnUser pair.lid ∧ isLidUser pair.pn)) then
    some (st, acc)
  else
    match jidDecode pair.lid, jidDecode pair.pn with
    | some lidDecoded, some pnDecoded =>
      let pnUser := pnDecoded.user
      let lidUser := lidDecoded.user
      match st.mapCachePn pnUser with
      | some existingLidUser =>
        if existingLidUser = lidUser then some (st, acc)
        else some (st, setAssoc acc pnUser lidUser)
      | none =>
        match st.lidMappingCol pnUser with
        | some existingLidUser =>
          let st' := { st with
            mapCachePn := setFun st.mapCachePn pnUser existingLidUser,
            mapCacheLid := setFun st.mapCacheLid existingLidUser pnUser }
          if existingLidUser = lidUser then some (st', acc)
          else some (st', setAssoc acc pnUser lidUser)
        | none => some (st, setAssoc acc pnUser lidUser)
    | _, _ => none

/-- The per-pair loop of storeLIDPNMappings; none in the second component
models the early return taken on a decode failure. -/
def storeLoop : RepoState → List PnLidPair → List (String × String) →
    RepoState × Option (List (String × String))
  | st, [], acc => (st, some acc)
  | st, pair :: rest, acc =>
    match storeStep st pair acc with
    | none => (st, none)
    | some (st', acc') => storeLoop st' rest acc'

/-- Embeds the lid-mapping transaction body: write forward and reverse
entries and fill both cache directions for every collected pair. -/
def applyMappingWrites (st : RepoState) (pairMap : List (String × String)) : RepoState :=
  pairMap.foldl
    (fun s p =>
      { s with
        lidMappingCol := setFun (setFun s.lidMappingCol p.1 p.2) (p.2 ++ "_reverse") p.1,
        mapCachePn := setFun s.mapCachePn p.1 p.2,
        mapCacheLid := setFun s.mapCacheLid p.2 p.1 })
    st

/-- Embeds storeLIDPNMappings: validate pairs, then persist the collected
pair map inside a single lid-mapping transaction. The early return taken on
a decode failure skips the transaction entirely. -/
def storeLIDPNMappings (st : RepoState) (pairs : List PnLidPair) : RepoState :=
  match storeLoop st pairs [] with
  | (st', none) => st'
  | (st', some pairMap) => applyMappingWrites st' pairMap

/-- Embeds one iteration of the first loop of getLIDsForPNs: fill from
cache, then key store (populating the cache), else queue the normalized PN
for the USync fetch; an empty stored LID user aborts the whole call with a
null result (modelled by none). -/
def lidsStep (st : RepoState) (pn : String) (usyncFetch : List (String × List Nat))
    (successfulPairs : List (String × PnLidPair)) :
    RepoState × Option (List (String × List Nat) × List (String × PnLidPair)) :=
  if ¬(isPnUser pn ∨ isHostedPnUser pn) then (st, some (usyncFetch, successfulPairs))
  else
    match jidDecode pn with
    | none => (st, some (usyncFetch, successfulPairs))
    | some decoded =>
      let pnUser := decoded.user
      let continueWith := fun (st' : RepoState) (lidUser : String) =>
        if lidUser = "" then (st', none)
        else
          let pnDevice := decoded.device.getD 0
          let deviceSpecificLid :=
            lidUser ++ (if pnDevice ≠ 0 then ":" ++ toString pnDevice else "") ++ "@" ++
              (if decoded.server = "hosted" then "hosted.lid" else "lid")
          (st', some (usyncFetch,
            setAssoc successfulPairs pn { pn := pn, lid := deviceSpecificLid }))
      match st.mapCachePn pnUser with
      | some lidUser => continueWith st lidUser
      | none =>
        match st.lidMappingCol pnUser with
        | some lidUser =>
          let st' := { st with
            mapCachePn := setFun st.mapCachePn pnUser lidUser,
            mapCacheLid := setFun st.mapCacheLid lidUser pnUser }
          continueWith st' lidUser
        | none =>
          let device := decoded.device.getD 0
          let normalizedPn0 := jidNormalizedUser pn
          let normalizedPn :=
            if isHostedPnUser normalizedPn0 then pnUser ++ "@s.whatsapp.net" else normalizedPn0
          (st, some (pushAssoc usyncFetch normalizedPn device, successfulPairs))

/-- The first loop of getLIDsForPNs over the requested PNs. -/
def lidsLoop1 : RepoState → List String → List (String × List Nat) →
    List (String × PnLidPair) →
    RepoState × Option (List (String × List Nat) × List (String × PnLidPair))
  | st, [], usyncFetch, successfulPairs => (st, some (usyncFetch, successfulPairs))
  | st, pn :: rest, usyncFetch, successfulPairs =>
    match lidsStep st pn usyncFetch successfulPairs with
    | (st', none) => (st', none)
    | (st', some (usyncFetch', successfulPairs')) => lidsLoop1 st' rest usyncFetch' successfulPairs'

/-- Embeds one iteration of the second loop of getLIDsForPNs over the
resolver result: build device-specific PN and LID JIDs for every queued
device of the resolved pair. Iterating the devices of a PN the resolver was
not asked about throws (a TypeError in the source), as does a lid that does
not decode. -/
def lids2Step (usyncFetch : List (String × List Nat)) (pair : PnLidPair)
    (successfulPairs : List (String × PnLidPair)) :
    Except String (List (String × PnLidPair)) :=
  match jidDecode pair.pn with
  | none => .ok successfulPairs
  | some pnDecoded =>
    if pnDecoded.user = "" then .ok successfulPairs
    else
      match jidDecode pair.lid with
      | none => .error "cannot decode resolver lid"
      | some lidDecoded =>
        if lidDecoded.user = "" then .ok successfulPairs
        else
          match lookupAssoc usyncFetch pair.pn with
          | none => .error "resolver pn was not requested"
          | some deviceList =>
            .ok (deviceList.foldl
              (fun acc device =>
                let deviceSpecificLid :=
                  lidDecoded.user ++ (if device ≠ 0 then ":" ++ toString device else "") ++
                    "@" ++ (if device = 99 then "hosted.lid" else "lid")
                let deviceSpecificPn :=
                  pnDecoded.user ++ (if device ≠ 0 then ":" ++ toString device else "") ++
                    "@" ++ (if device = 99 then "hosted" else "s.whatsapp.net")
                setAssoc acc deviceSpecificPn { pn := deviceSpecificPn, lid := deviceSpecificLid })
              successfulPairs)

/-- The second loop of getLIDsForPNs over the resolver result. -/
def lidsLoop2 (usyncFetch : List (String × List Nat)) :
    List PnLidPair → List (String × PnLidPair) → Except String (List (String × PnLidPair))
  | [], successfulPairs => .ok successfulPairs
  | pair :: rest, successfulPairs =>
    match lids2Step usyncFetch pair successfulPairs with
    | .error e => .error e
    | .ok successfulPairs' => lidsLoop2 usyncFetch rest successfulPairs'

/-- The post-loop phase of getLIDsForPNs: the resolver backfill (persisting
newly learned mappings through storeLIDPNMappings) when anything was queued;
a null or empty resolver result makes the whole call return null. -/
def getLIDsPost (resolver : Resolver) (st1 : RepoState)
    (usyncFetch : List (String × List Nat)) (successfulPairs : List (String × PnLidPair)) :
    Except String (Option (List PnLidPair)) × RepoState :=
  if usyncFetch.isEmpty then (.ok (some (assocValues successfulPairs)), st1)
  else
    match resolver (usyncFetch.map (fun p => p.1)) with
    | none => (.ok none, st1)
    | some [] => (.ok none, st1)
    | some result =>
      match lidsLoop2 usyncFetch result successfulPairs with
      | .error e => (.error e, storeLIDPNMappings st1 result)
      | .ok pairs2 => (.ok (some (assocValues pairs2)), storeLIDPNMappings st1 result)

/-- Embeds getLIDsForPNs: the first loop over the requested PNs followed by
the resolver backfill phase. -/
def getLIDsForPNs (st : RepoState) (resolver : Resolver) (pns : List String) :
    Except String (Option (List PnLidPair)) × RepoState :=
  match lidsLoop1 st pns [] [] with
  | (st1, none) => (.ok none, st1)
  | (st1, some (usyncFetch, successfulPairs)) =>
    getLIDsPost resolver st1 usyncFetch successfulPairs

/-- Embeds getLIDForPN: first result of getLIDsForPNs on a singleton; the
index into an empty list throws; an empty lid string collapses to null. -/
def getLIDForPN (st : RepoState) (resolver : Resolver) (pn : String) :
    Except String (Option String) × RepoState :=
  match getLIDsForPNs st resolver [pn] with
  | (.error e, st') => (.error e, st')
  | (.ok none, st') => (.ok none, st')
  | (.ok (some []), st') => (.error "first pair missing", st')
  | (.ok (some (p :: _)), st') => (.ok (if p.lid = "" then none else some p.lid), st')

/-! ## Signal storage binding (lib/Signal/libsignal.js, signalStorage) -/

/-- The address-parsing phase of resolveLIDSignalAddress: split the dotted
signal address into its domain-type tag and the rebuilt PN JID. -/
def resolveParts (id : String) : Option Nat × String :=
  let parts := splitStr '.' id
  let deviceId := parts.headD ""
  let device := (parts.drop 1).headD ""
  let dparts := splitStr '_' deviceId
  let user := dparts.headD ""
  let domainTypeStr := (dparts.drop 1).headD ""
  let domainType := jsParseInt (if domainTypeStr = "" then "0" else domainTypeStr)
  (domainType,
    user ++ (if device ≠ "0" then ":" ++ device else "") ++ "@" ++
      (if domainType = some 2 then "hosted" else "s.whatsapp.net"))

/-- Embeds resolveLIDSignalAddress: a dotted signal address whose domain part
is not LID or hosted-LID is rebuilt into a PN JID and redirected to the
mapped LID address when the mapping store knows one. -/
def resolveLIDSignalAddress (st : RepoState) (resolver : Resolver) (id : String) :
    Except String String × RepoState :=
  if containsChar id '.' then
    if (resolveParts id).1 = some 1 ∨ (resolveParts id).1 = some 3 then (.ok id, st)
    else
      match getLIDForPN st resolver (resolveParts id).2 with
      | (.error e, st') => (.error e, st')
      | (.ok none, st') => (.ok id, st')
      | (.ok (some lidForPN), st') =>
        match jidToSignalProtocolAddress lidForPN with
        | .error e => (.error e, st')
        | .ok lidAddr => (.ok lidAddr.addrStr, st')
  else (.ok id, st)

/-- Embeds signalStorage.loadSession: resolve the address, read the session
column, deserialize; every failure is caught and yields null. Cache fills
done during resolution persist. -/
def loadSession (st : RepoState) (resolver : Resolver) (id : String) :
    Option SessionRecord × RepoState :=
  match resolveLIDSignalAddress st resolver id with
  | (.error _, st') => (none, st')
  | (.ok wireJid, st') => ((st'.sessionCol wireJid).map SessionRecord.deserialize, st')

/-! ## Signal repository operations (lib/Signal/libsignal.js) -/

structure SessionValidation where
  sessionExists : Bool
  reason : Option String
deriving DecidableEq, Repr

/-- Embeds validateSession: the whole body is wrapped in a try/catch, so an
address construction error becomes a validation-error result instead of
propagating; a missing record or a record without an open session report
their specific reasons. -/
def validateSession (st : RepoState) (resolver : Resolver) (jid : String) :
    SessionValidation × RepoState :=
  match jidToSignalProtocolAddress jid with
  | .error _ => ({ sessionExists := false, reason := some "validation error" }, st)
  | .ok addr =>
    match loadSession st resolver addr.addrStr with
    | (none, st') => ({ sessionExists := false, reason := some "no session" }, st')
    | (some sess, st') =>
      if sess.haveOpenSession then ({ sessionExists := true, reason := none }, st')
      else ({ sessionExists := false, reason := some "no open session" }, st')

/-- Embeds deleteSession: set every target address to null in one batched
session write; address construction errors propagate (they are not caught
here). -/
def deleteSession (st : RepoState) (jids : List String) :
    Except String Unit × RepoState :=
  if jids.isEmpty then (.ok (), st)
  else
    match mapExcept jidToSignalProtocolAddress jids with
    | .error e => (.error e, st)
    | .ok addrs =>
      (.ok (),
        { st with sessionCol := addrs.foldl (fun f a => delFun f a.addrStr) st.sessionCol })

structure MigrateResult where
  migrated : Nat
  skipped : Nat
  total : Nat
deriving DecidableEq, Repr

/-- Key-store and cache events performed by migrateSession, in order: a
batched session write (a list of address-string updates where none deletes)
or a migrated-session cache insertion. -/
inductive StoreEvent where
  | setSessions (updates : List (String × Option SessionRecord)) : StoreEvent
  | cacheMigrated (key : String) : StoreEvent
deriving DecidableEq, Repr

structure MigrationOp where
  fromAddr : ProtocolAddress
  toAddr : ProtocolAddress
  deviceId : Nat
  user : String
  lidWithDevice : String
deriving DecidableEq, Repr

/-- First-occurrence deduplication (JavaScript Array.from over a Set). -/
def jsSetDedup : List String → List String
  | [] => []
  | x :: xs => if (jsSetDedup xs).contains x then x :: (jsSetDedup xs).erase x else x :: jsSetDedup xs

/-- Last-write lookup into a JavaScript-object style update list. -/
def lookupLast {α : Type} : List (String × α) → String → Option α
  | [], _ => none
  | e :: rest, k =>
    match lookupLast rest k with
    | some v => some v
    | none => if e.1 = k then some e.2 else none

/-- Apply a batched session update (null deletes, later writes win). -/
def applyBatch (f : String → Option SessionRecord)
    (updates : List (String × Option SessionRecord)) : String → Option SessionRecord :=
  fun k => match lookupLast updates k with
    | some v => v
    | none => f k

/-- Embeds the per-op body of the migration loop: skip addresses with no
stored record; an open deserialized record is rewritten under the LID
address and nulled under the PN address inside the same update batch. -/
def migrationStep (pnSessions : String → Option SessionRecord)
    (acc : List (String × Option SessionRecord) × Nat) (op : MigrationOp) :
    List (String × Option SessionRecord) × Nat :=
  match pnSessions op.fromAddr.addrStr with
  | none => acc
  | some pnSession =>
    let fromSession := SessionRecord.deserialize pnSession
    if fromSession.haveOpenSession then
      (acc.1 ++ [(op.toAddr.addrStr, some fromSession.serialize), (op.fromAddr.addrStr, none)],
        acc.2 + 1)
    else acc

/-- The per-key body of the session batch-load loop: a key with no stored
record is skipped; otherwise the device number is parsed back out of the key
and the device JID is rebuilt (device 0 omitted, a non-numeric device
printed as NaN, device 99 redirected to the hosted server, mirroring the
conditional chain of the source). -/
def migSessionJid (st : RepoState) (user : String) (sessionKey : String) : Option String :=
  match st.sessionCol sessionKey with
  | none => none
  | some _ =>
    let deviceStr := ((splitStr '.' sessionKey).drop 1).headD ""
    if deviceStr = "" then none
    else
      let deviceNum := jsParseInt deviceStr
      let jidStr :=
        if deviceNum = some 0 then user ++ "@s.whatsapp.net"
        else user ++ ":" ++
          (match deviceNum with
           | some n => toString n
           | none => "NaN") ++ "@s.whatsapp.net"
      some (if deviceNum = some 99 then user ++ ":99@hosted" else jidStr)

/-- Builds one migration operation: the source Signal address, the address
of the device transferred onto the target LID, and the device id recorded
for the migrated-session cache. -/
def migBuildOp (user toJid : String) (jid : String) : Except String MigrationOp :=
  (jidToSignalProtocolAddress jid).bind (fun fromAddr =>
    let lidWithDevice := transferDevice jid toJid
    (jidToSignalProtocolAddress lidWithDevice).map (fun toAddr =>
      { fromAddr := fromAddr, toAddr := toAddr,
        deviceId := ((jidDecode jid).bind (fun d => d.device)).getD 0,
        user := user, lidWithDevice := lidWithDevice }))

/-- The batch-loaded PN sessions, keyed by the deduplicated source address
strings of the migration operations. -/
def migratePnSessions (st : RepoState) (migrationOps : List MigrationOp) :
    String → Option SessionRecord :=
  fun k =>
    if (jsSetDedup (migrationOps.map (fun op => op.fromAddr.addrStr))).contains k then
      st.sessionCol k
    else none

/-- The migrated-session cache keys recorded after the batched write: one
user.device key per operation whose LID address received a session. -/
def migCacheKeys (sessionUpdates : List (String × Option SessionRecord))
    (migrationOps : List MigrationOp) : List String :=
  migrationOps.filterMap (fun op =>
    match lookupLast sessionUpdates op.toAddr.addrStr with
    | some (some _) => some (op.user ++ "." ++ toString op.deviceId)
    | _ => none)

/-- The tail of the migrateSession transaction over the built migration
operations: fold the per-op migration step into one batched session update
and the migrated count; an empty batch leaves the store untouched, otherwise
the batch is applied in a single set and the migrated devices are recorded
in the cache afterwards. -/
def migrateFinish (st : RepoState) (migrationOps : List MigrationOp) :
    Except String MigrateResult × RepoState × List StoreEvent :=
  if ((migrationOps.foldl (migrationStep (migratePnSessions st migrationOps)) ([], 0)).1).isEmpty then
    (.ok { migrated := (migrationOps.foldl
             (migrationStep (migratePnSessions st migrationOps)) ([], 0)).2,
           skipped := migrationOps.length - (migrationOps.foldl
             (migrationStep (migratePnSessions st migrationOps)) ([], 0)).2,
           total := migrationOps.length }, st, [])
  else
    (.ok { migrated := (migrationOps.foldl
             (migrationStep (migratePnSessions st migrationOps)) ([], 0)).2,
           skipped := migrationOps.length - (migrationOps.foldl
             (migrationStep (migratePnSessions st migrationOps)) ([], 0)).2,
           total := migrationOps.length },
      { st with
        sessionCol := applyBatch st.sessionCol
          (migrationOps.foldl (migrationStep (migratePnSessions st migrationOps)) ([], 0)).1,
        migratedCache :=
          (migCacheKeys
            (migrationOps.foldl (migrationStep (migratePnSessions st migrationOps)) ([], 0)).1
            migrationOps).foldl
              (fun m k => fun x => if x = k then true else m x) st.migratedCache },
      StoreEvent.setSessions
          (migrationOps.foldl (migrationStep (migratePnSessions st migrationOps)) ([], 0)).1 ::
        (migCacheKeys
          (migrationOps.foldl (migrationStep (migratePnSessions st migrationOps)) ([], 0)).1
          migrationOps).map StoreEvent.cacheMigrated)

/-- The body of the migrateSession transaction, after validation, over the
uncached device list: batch-load the per-device session records, build the
migration operations (transferring each device onto the target LID), and
hand them to the finishing fold. -/
def migrateCore (st : RepoState) (user toJid : String) (uncachedDevices : List String) :
    Except String MigrateResult × RepoState × List StoreEvent :=
  match mapExcept (migBuildOp user toJid)
      ((jsSetDedup (uncachedDevices.map (fun device => user ++ "." ++ device))).filterMap
        (migSessionJid st user)) with
  | .error e => (.error e, st, [])
  | .ok migrationOps => migrateFinish st migrationOps

/-- Embeds migrateSession. Validation: a missing source or a target that is
not LID or hosted-LID returns zero counts; a target that is LID but a source
that is not PN or hosted-PN returns total one; a source decode failure or a
missing persisted device list returns zero counts. Otherwise the persisted
device list, augmented with the source device and filtered by the
migrated-session cache, is handed to the transaction body. -/
def migrateSession (st : RepoState) (fromJid toJid : String) :
    Except String MigrateResult × RepoState × List StoreEvent :=
  if fromJid = "" ∨ (¬isLidUser toJid ∧ ¬isHostedLidUser toJid) then
    (.ok { migrated := 0, skipped := 0, total := 0 }, st, [])
  else if ¬isPnUser fromJid ∧ ¬isHostedPnUser fromJid then
    (.ok { migrated := 0, skipped := 0, total := 1 }, st, [])
  else
    match jidDecode fromJid with
    | none => (.ok { migrated := 0, skipped := 0, total := 0 }, st, [])
    | some decodedFrom =>
      let user := decodedFrom.user
      match st.deviceListCol user with
      | none => (.ok { migrated := 0, skipped := 0, total := 0 }, st, [])
      | some userDevices0 =>
        let fromDeviceStr := toString (decodedFrom.device.getD 0)
        let userDevices :=
          if userDevices0.contains fromDeviceStr then userDevices0
          else userDevices0 ++ [fromDeviceStr]
        let uncachedDevices :=
          userDevices.filter (fun device => ¬ st.migratedCache (user ++ "." ++ device))
        migrateCore st user toJid uncachedDevices

/-! ## Wire nodes (binary stanza model) -/

inductive BinaryNode where
  | node (tag : String) (attrs : List (String × String)) (children : List BinaryNode) : BinaryNode
  | raw (data : Nat) : BinaryNode

def BinaryNode.attrsOf : BinaryNode → List (String × String)
  | .node _ attrs _ => attrs
  | .raw _ => []

def BinaryNode.childrenOf : BinaryNode → List BinaryNode
  | .node _ _ children => children
  | .raw _ => []

def BinaryNode.tagOf : BinaryNode → String
  | .node tag _ _ => tag
  | .raw _ => ""

/-! ## Session asserter (src/Socket/messages-send.ts, assertSessions) -/

/-- Embeds the per-JID loop of assertSessions: consult the peer-sessions
cache keyed by the signal address; on a miss validate the session and cache
the boolean; collect the targets that are missing a session or forced. -/
def assertLoop (resolver : Resolver) (force : Bool) :
    RepoState → List String → List String → Except String (List String) × RepoState
  | st, [], acc => (.ok acc, st)
  | st, jid :: rest, acc =>
    match jidToSignalProtocolAddress jid with
    | .error e => (.error e, st)
    | .ok addr =>
      let signalId := addr.addrStr
      match st.peerSessionsCache signalId with
      | some cachedSession =>
        if cachedSession ∧ ¬force then assertLoop resolver force st rest acc
        else assertLoop resolver force st rest (acc ++ [jid])
      | none =>
        match validateSession st resolver jid with
        | (v, st') =>
          let st'' := { st' with
            peerSessionsCache := setFun st'.peerSessionsCache signalId v.sessionExists }
          if v.sessionExists ∧ ¬force then assertLoop resolver force st'' rest acc
          else assertLoop resolver force st'' rest (acc ++ [jid])

def mkUserNode (force : Bool) (jid : String) : BinaryNode :=
  .node "user" ([("jid", jid)] ++ if force then [("reason", "identity")] else []) []

/-- The encrypt-get IQ stanza issued for the wire JIDs. -/
def mkEncryptGetIq (force : Bool) (wireJids : List String) : BinaryNode :=
  .node "iq" [("xmlns", "encrypt"), ("type", "get"), ("to", "s.whatsapp.net")]
    [.node "key" [] (wireJids.map (mkUserNode force))]

structure AssertResult where
  didFetch : Bool
  wireJids : List String
  iq : Option BinaryNode

/-- Embeds assertSessions: deduplicate, collect the targets requiring a
fetch, keep LID-addressed ones verbatim and replace PN-addressed ones with
the LIDs resolved by the mapping store (a failed resolution contributes
nothing), issue the encrypt-get IQ and mark the wire addresses as having a
session. Parsing the prekey bundles of the server reply is external. -/
def assertSessions (st : RepoState) (resolver : Resolver) (jids : List String) (force : Bool) :
    Except String AssertResult × RepoState :=
  let uniqueJids := jsSetDedup jids
  match assertLoop resolver force st uniqueJids [] with
  | (.error e, st1) => (.error e, st1)
  | (.ok jidsRequiringFetch, st1) =>
    if jidsRequiringFetch.isEmpty then
      (.ok { didFetch := false, wireJids := [], iq := none }, st1)
    else
      let lidKeep := jidsRequiringFetch.filter (fun j => isLidUser j ∨ isHostedLidUser j)
      match getLIDsForPNs st1 resolver
          (jidsRequiringFetch.filter (fun j => isPnUser j ∨ isHostedPnUser j)) with
      | (.error e, st2) => (.error e, st2)
      | (.ok mapped, st2) =>
        let wireJids := lidKeep ++ (match mapped with
          | some pairs => pairs.map (fun p => p.lid)
          | none => [])
        match mapExcept jidToSignalProtocolAddress wireJids with
        | .error e => (.error e, st2)
        | .ok wireAddrs =>
          let st3 := { st2 with
            peerSessionsCache := wireAddrs.foldl
              (fun f a => setFun f a.addrStr true) st2.peerSessionsCache }
          (.ok { didFetch := true, wireJids := wireJids,
                 iq := some (mkEncryptGetIq force wireJids) }, st3)

/-! ## Encryption fan-out (src/Socket/messages-send.ts, createParticipantNodes) -/

structure EncOut where
  encType : String
  ciphertext : Nat
deriving DecidableEq, Repr

/-- Host capabilities consumed by the fan-out: the pre-send patcher (which
may return one message or a per-recipient list) and the pairwise Signal
encryption, both external collaborators abstracted as pure functions;
messages are opaque payloads. -/
structure HostFns where
  patcher : Nat → List String → Sum Nat (List (Option String × Nat))
  encrypt : String → Nat → EncOut
  meId : String
  meLid : Option String

inductive EncEvent where
  | patcherCalled : EncEvent
  | encrypted (jid : String) : EncEvent
deriving DecidableEq, Repr

def mkToNode (jid : String) (enc : EncOut) (extraAttrs : List (String × String)) : BinaryNode :=
  .node "to" [("jid", jid)]
    [.node "enc" ([("v", "2"), ("type", enc.encType)] ++ extraAttrs) [.raw enc.ciphertext]]

/-- Embeds createParticipantNodes: an empty recipient list returns
immediately with no nodes, no device-identity flag, and no patcher or
encryption activity; otherwise the patched messages are encrypted per
recipient (substituting the device-sent message for own non-exact devices)
into to/enc subtrees, and the flag records whether any encryption produced a
prekey message. -/
def createParticipantNodes (h : HostFns) (recipientJids : List String) (message : Nat)
    (extraAttrs : List (String × String)) (dsmMessage : Option Nat) :
    Except String ((List BinaryNode × Bool) × List EncEvent) :=
  if recipientJids.isEmpty then .ok (([], false), [])
  else
    let patched := h.patcher message recipientJids
    let patchedMessages : List (Option String × Nat) :=
      match patched with
      | .inl m => recipientJids.map (fun j => (some j, m))
      | .inr l => l
    let meLidUser : Option String := h.meLid.bind (fun ml => (jidDecode ml).map (fun d => d.user))
    match mapExcept (fun pm =>
        match pm.1 with
        | none => Except.ok none
        | some jid =>
          (match dsmMessage with
            | some dsm =>
              match jidDecode jid, jidDecode h.meId with
              | some t, some me =>
                let isOwnUser := t.user = me.user ∨ (meLidUser.isSome ∧ meLidUser = some t.user)
                let isExactSenderDevice := jid = h.meId ∨ (h.meLid.isSome ∧ h.meLid = some jid)
                Except.ok (if isOwnUser ∧ ¬isExactSenderDevice then dsm else pm.2)
              | _, _ => Except.error "invalid jid in participant fan-out"
            | none => Except.ok pm.2).map (fun msgToEncrypt =>
            let enc := h.encrypt jid msgToEncrypt
            some (mkToNode jid enc extraAttrs, enc.encType == "pkmsg", jid))) patchedMessages with
    | .error e => .error e
    | .ok results =>
      let nodes := results.filterMap (fun r => r.map (fun x => x.1))
      let flag := results.any (fun r => match r with | some x => x.2.1 | none => false)
      let events := EncEvent.patcherCalled ::
        results.filterMap (fun r => r.map (fun x => EncEvent.encrypted x.2.2))
      .ok ((nodes, flag), events)

/-! ## Sender-key distribution fan-out (src/Socket/messages-send.ts,
    relayMessage group path, the device loop) -/

structure DeviceWithJid where
  user : String
  device : Option Nat
  jid : String
deriving DecidableEq, Repr

/-- Embeds one iteration of the sender-key recipient loop: include the
device when sender-key memory does not mark it (or a participant retry
forces resend) and it is neither on a hosted server nor device 99; included
devices are marked in the (mutated) map. -/
def senderKeyStep (hasParticipant : Bool) (acc : List String × (String → Bool))
    (device : DeviceWithJid) : List String × (String → Bool) :=
  let hasKey := acc.2 device.jid
  if (¬hasKey ∨ hasParticipant) ∧ ¬isHostedLidUser device.jid ∧ ¬isHostedPnUser device.jid ∧
      device.device ≠ some 99 then
    (acc.1 ++ [device.jid], fun k => if k = device.jid then true else acc.2 k)
  else acc

/-- Embeds the sender-key recipient selection over the enumerated devices,
starting from the stored sender-key memory for the group. -/
def senderKeyFanout (devices : List DeviceWithJid) (senderKeyMap : String → Bool)
    (hasParticipant : Bool) : List String × (String → Bool) :=
  devices.foldl (senderKeyStep hasParticipant) ([], senderKeyMap)

/-! ## Direct 1:1 stanza assembly (src/Socket/messages-send.ts,
    relayMessage, non-group non-retry non-peer path) -/

/-- Modelled from the spec: the v2 participant hash over the full sorted
recipient list (the hashing helper lives in the external Utils module). -/
def generateParticipantHashV2 (jids : List String) : String :=
  "2:" ++ joinStr ',' (List.insertionSort (fun a b : String => a ≤ b) jids)

/-- Embeds the direct 1:1 path of relayMessage after device enumeration
(getUSyncDevices is an external USync query; the enumerated devices are an
input): skip the exact sender device, split recipients into own devices
(encrypted to the device-sent message) and others (device-sent message as
the alternate), fan out, and assemble the message stanza. The participant
hash write into extraAttrs mirrors the source: it happens after both
fan-out calls already consumed extraAttrs, and the stanza attributes are
built from additionalAttributes only, so the hash value is dropped. -/
def relayDirectAssemble (h : HostFns) (devices : List DeviceWithJid)
    (message dsmMessage : Nat) (msgId destinationJid msgType : String)
    (additionalAttributes extraAttrs0 : List (String × String))
    (tcToken : Option Nat) (additionalNodes : List BinaryNode) :
    Except String BinaryNode :=
  match jidDecode h.meId with
  | none => .error "invalid own id"
  | some meDecoded =>
    let mePnUser := meDecoded.user
    let meLidUser : Option String := h.meLid.bind (fun ml => (jidDecode ml).map (fun d => d.user))
    let cls := devices.foldl
      (fun (acc : List String × List String × List String) dw =>
        let isExactSenderDevice := dw.jid = h.meId ∨ (h.meLid.isSome ∧ h.meLid = some dw.jid)
        if isExactSenderDevice then acc
        else
          let isMe := dw.user = mePnUser ∨ (meLidUser.isSome ∧ meLidUser = some dw.user)
          if isMe then (acc.1 ++ [dw.jid], acc.2.1 ++ [dw.jid], acc.2.2)
          else (acc.1 ++ [dw.jid], acc.2.1, acc.2.2 ++ [dw.jid]))
      ([], [], [])
    let meRecipients := cls.2.1
    let otherRecipients := cls.2.2
    match createParticipantNodes h meRecipients dsmMessage extraAttrs0 none with
    | .error e => .error e
    | .ok ((meNodes, s1), _) =>
      match createParticipantNodes h otherRecipients message extraAttrs0 (some dsmMessage) with
      | .error e => .error e
      | .ok ((otherNodes, s2), _) =>
        let participants := meNodes ++ otherNodes
        let _extraAttrs1 :=
          if meRecipients.length > 0 ∨ otherRecipients.length > 0 then
            setAssoc extraAttrs0 "phash"
              (generateParticipantHashV2 (meRecipients ++ otherRecipients))
          else extraAttrs0
        let shouldIncludeDeviceIdentity := s1 ∨ s2
        let binaryNodeContent :=
          if participants.isEmpty then []
          else [BinaryNode.node "participants" [] participants]
        let content := binaryNodeContent ++
          (if shouldIncludeDeviceIdentity then [BinaryNode.node "device-identity" [] []] else []) ++
          (match tcToken with
           | some t => [BinaryNode.node "tctoken" [] [.raw t]]
           | none => []) ++
          additionalNodes
        .ok (BinaryNode.node "message"
          ([("id", msgId), ("to", destinationJid), ("type", msgType)] ++ additionalAttributes)
          content)

/-! ## Shared concrete states for witnesses and counterexamples -/

def emptyRepoState : RepoState :=
  { sessionCol := fun _ => none, lidMappingCol := fun _ => none,
    deviceListCol := fun _ => none, mapCachePn := fun _ => none,
    mapCacheLid := fun _ => none, migratedCache := fun _ => false,
    peerSessionsCache := fun _ => none }

def nullResolver : Resolver := fun _ => none

/-- Pre-state of the migration scenario: device list of user 7 is
0, 1, 2 and open sessions are stored for devices 0 and 2 only. -/
def migScenarioState : RepoState :=
  { emptyRepoState with
    deviceListCol := fun k => if k = "7" then some ["0", "1", "2"] else none,
    sessionCol := fun k =>
      if k = "7.0" then some { openSession := true, payload := 10 }
      else if k = "7.2" then some { openSession := true, payload := 12 }
      else none }

/-! ## C10: empty fan-out -/

/-- C10: createParticipantNodes called with an empty recipient list returns
immediately with no participant nodes and a false device-identity flag,
without invoking the pre-send patcher and without encrypting anything (the
event trace is empty). -/
theorem createParticipantNodes_empty (h : HostFns) (message : Nat)
    (extraAttrs : List (String × String)) (dsmMessage : Option Nat) :
    createParticipantNodes h [] message extraAttrs dsmMessage = .ok (([], false), []) := rfl

/-! ## C9: validateSession never throws -/

/-- C9: validateSession never propagates an error: whenever Signal address
construction fails (undecodable JID, empty user, or device 99 on a
non-hosted server) it returns a record with a false existence flag and the
validation-error reason, and every negative validation result carries a
reason string. -/
theorem validateSession_never_throws :
    (∀ (st : RepoState) (resolver : Resolver) (jid e : String),
        jidToSignalProtocolAddress jid = .error e →
        (validateSession st resolver jid).1 =
          { sessionExists := false, reason := some "validation error" }) ∧
    (∀ (st : RepoState) (resolver : Resolver) (jid : String),
        ((validateSession st resolver jid).1).sessionExists = false →
        ((validateSession st resolver jid).1).reason.isSome = true) := by
  constructor
  · intro st resolver jid e herr
    simp [validateSession, herr]
  · intro st resolver jid hfalse
    cases haddr : jidToSignalProtocolAddress jid with
    | error e => simp [validateSession, haddr]
    | ok addr =>
      simp only [validateSession, haddr] at hfalse ⊢
      cases hload : loadSession st resolver addr.addrStr with
      | mk sess st' =>
        cases sess with
        | none => simp [hload]
        | some s =>
          simp only [hload] at hfalse ⊢
          by_cases hopen : s.haveOpenSession = true
          · simp [hopen] at hfalse
          · simp [hopen]

/-- C9 witness: a device-99 JID on the regular server and an undecodable
string both produce the validation-error result. -/
theorem validateSession_never_throws_witness :
    (validateSession emptyRepoState nullResolver "7:99@s.whatsapp.net").1 =
      { sessionExists := false, reason := some "validation error" } ∧
    (validateSession emptyRepoState nullResolver "nojid").1 =
      { sessionExists := false, reason := some "validation error" } :=
  ⟨validateSession_never_throws.1 emptyRepoState nullResolver "7:99@s.whatsapp.net"
      "non-hosted device 99" rfl,
   validateSession_never_throws.1 emptyRepoState nullResolver "nojid"
      "invalid jid" rfl⟩

/-! ## C8: migrateSession argument validation -/

/-- C8: migrateSession validates its arguments without throwing: a target
that is not a LID or hosted-LID user returns zero counts and performs no
writes or events; a LID target with a source that is not a PN or hosted-PN
user returns total one; a PN source always decodes (so the decode-failure
return of the source is unreachable); and a decodable PN source with no
persisted device list returns zero counts and performs no writes. -/
theorem migrateSession_validation_returns :
    (∀ (st : RepoState) (fromJid toJid : String),
        isLidUser toJid = false → isHostedLidUser toJid = false →
        migrateSession st fromJid toJid =
          (.ok { migrated := 0, skipped := 0, total := 0 }, st, [])) ∧
    (∀ (st : RepoState) (fromJid toJid : String),
        (isLidUser toJid = true ∨ isHostedLidUser toJid = true) → fromJid ≠ "" →
        isPnUser fromJid = false → isHostedPnUser fromJid = false →
        migrateSession st fromJid toJid =
          (.ok { migrated := 0, skipped := 0, total := 1 }, st, [])) ∧
    (∀ fromJid : String, (isPnUser fromJid = true ∨ isHostedPnUser fromJid = true) →
        (jidDecode fromJid).isSome = true) ∧
    (∀ (st : RepoState) (fromJid toJid : String) (df : DecodedJid),
        (isLidUser toJid = true ∨ isHostedLidUser toJid = true) → fromJid ≠ "" →
        (isPnUser fromJid = true ∨ isHostedPnUser fromJid = true) →
        jidDecode fromJid = some df → st.deviceListCol df.user = none →
        migrateSession st fromJid toJid =
          (.ok { migrated := 0, skipped := 0, total := 0 }, st, [])) := by
  refine ⟨?_, ?_, ?_, ?_⟩
  · intro st fromJid toJid h1 h2
    simp [migrateSession, h1, h2]
  · intro st fromJid toJid hlid hne hpn hhpn
    have hcond : ¬(fromJid = "" ∨ (¬isLidUser toJid = true ∧ ¬isHostedLidUser toJid = true)) := by
      rcases hlid with h | h <;> simp [hne, h]
    have hcond2 : (¬isPnUser fromJid = true ∧ ¬isHostedPnUser fromJid = true) := by
      simp [hpn, hhpn]
    simp only [migrateSession]
    rw [if_neg hcond, if_pos hcond2]
  · intro fromJid hpn
    cases hdec : jidDecode fromJid with
    | none => rcases hpn with h | h <;> simp [isPnUser, isHostedPnUser, hdec] at h
    | some d => simp
  · intro st fromJid toJid df hlid hne hpn hdec hdl
    have hcond : ¬(fromJid = "" ∨ (¬isLidUser toJid = true ∧ ¬isHostedLidUser toJid = true)) := by
      rcases hlid with h | h <;> simp [hne, h]
    have hpn' : ¬(¬isPnUser fromJid = true ∧ ¬isHostedPnUser fromJid = true) := by
      rcases hpn with h | h <;> simp [h]
    simp only [migrateSession]
    rw [if_neg hcond, if_neg hpn']
    simp only [hdec, hdl]

/-- C8 witness: the validation branches at concrete inputs (group target,
LID source into LID target, PN source with no device list). -/
theorem migrateSession_validation_returns_witness :
    migrateSession emptyRepoState "7@s.whatsapp.net" "8@g.us" =
      (.ok { migrated := 0, skipped := 0, total := 0 }, emptyRepoState, []) ∧
    migrateSession emptyRepoState "8@lid" "9@lid" =
      (.ok { migrated := 0, skipped := 0, total := 1 }, emptyRepoState, []) ∧
    (jidDecode "7@s.whatsapp.net").isSome = true ∧
    migrateSession emptyRepoState "7@s.whatsapp.net" "9@lid" =
      (.ok { migrated := 0, skipped := 0, total := 0 }, emptyRepoState, []) :=
  ⟨migrateSession_validation_returns.1 emptyRepoState "7@s.whatsapp.net" "8@g.us"
      (by decide) (by decide),
   migrateSession_validation_returns.2.1 emptyRepoState "8@lid" "9@lid"
      (Or.inl (by decide)) (by decide) (by decide) (by decide),
   migrateSession_validation_returns.2.2.1 "7@s.whatsapp.net" (Or.inl (by decide)),
   migrateSession_validation_returns.2.2.2 emptyRepoState "7@s.whatsapp.net" "9@lid"
      { user := "7", device := none, server := "s.whatsapp.net", domainType := 0 }
      (Or.inl (by decide)) (by decide) (Or.inl (by decide)) (by decide) (by decide)⟩

/-! ## C6: sender-key distribution fan-out membership -/

/-- Fold invariant for the sender-key recipient loop: with an accumulator
map that marks exactly the pre-state marks plus the recipients collected so
far, membership in the final recipient list is membership in the
accumulator or a qualifying device in the remaining list. -/
theorem senderKeyFanout_mem_aux (p : Bool) (m : String → Bool) (j : String) :
    ∀ (devices : List DeviceWithJid) (r : List String) (m' : String → Bool),
      (∀ k, m' k = true ↔ (m k = true ∨ k ∈ r)) →
      (j ∈ (devices.foldl (senderKeyStep p) (r, m')).1 ↔
        (j ∈ r ∨ ∃ d ∈ devices, d.jid = j ∧ (m j = false ∨ p = true) ∧
          isHostedLidUser j = false ∧ isHostedPnUser j = false ∧ d.device ≠ some 99)) := by
  intro devices
  induction devices with
  | nil => intro r m' _; simp
  | cons d rest ih =>
    intro r m' hinv
    rw [List.foldl_cons]
    by_cases hc : (¬m' d.jid = true ∨ p = true) ∧ ¬isHostedLidUser d.jid = true ∧
        ¬isHostedPnUser d.jid = true ∧ d.device ≠ some 99
    · have hstep : senderKeyStep p (r, m') d =
          (r ++ [d.jid], fun k => if k = d.jid then true else m' k) := by
        simp only [senderKeyStep]
        rw [if_pos hc]
      rw [hstep]
      have hinv' : ∀ k, (if k = d.jid then true else m' k) = true ↔
          (m k = true ∨ k ∈ r ++ [d.jid]) := by
        intro k
        by_cases hk : k = d.jid
        · subst hk; simp
        · rw [if_neg hk, hinv k, List.mem_append, List.mem_singleton]
          simp [hk]
      rw [ih (r ++ [d.jid]) _ hinv']
      obtain ⟨hkey, hg1, hg2, hg3⟩ := hc
      constructor
      · rintro (hr | hex)
        · rw [List.mem_append, List.mem_singleton] at hr
          rcases hr with hr | hj
          · exact Or.inl hr
          · subst hj
            refine Or.inr ⟨d, List.mem_cons_self _ _, rfl, ?_,
              Bool.eq_false_iff.2 hg1, Bool.eq_false_iff.2 hg2, hg3⟩
            rcases hkey with hkey | hp'
            · refine Or.inl (Bool.eq_false_iff.2 (fun hm => hkey ((hinv d.jid).2 (Or.inl hm))))
            · exact Or.inr hp'
        · rcases hex with ⟨d', hd', rest'⟩
          exact Or.inr ⟨d', List.mem_cons_of_mem _ hd', rest'⟩
      · rintro (hr | hex)
        · exact Or.inl (List.mem_append.2 (Or.inl hr))
        · rcases hex with ⟨d', hd', hjid, hcond, hl, hp2, h99⟩
          rcases List.mem_cons.1 hd' with hdd | hdd
          · refine Or.inl (List.mem_append.2 (Or.inr (List.mem_singleton.2 ?_)))
            rw [← hjid, hdd]
          · exact Or.inr ⟨d', hdd, hjid, hcond, hl, hp2, h99⟩
    · have hstep : senderKeyStep p (r, m') d = (r, m') := by
        simp only [senderKeyStep]
        rw [if_neg hc]
      rw [hstep, ih r m' hinv]
      constructor
      · rintro (hr | hex)
        · exact Or.inl hr
        · rcases hex with ⟨d', hd', rest'⟩
          exact Or.inr ⟨d', List.mem_cons_of_mem _ hd', rest'⟩
      · rintro (hr | hex)
        · exact Or.inl hr
        · rcases hex with ⟨d', hd', hjid, hcond, hl, hp2, h99⟩
          rcases List.mem_cons.1 hd' with hdd | hdd
          · -- the head device qualifies by the pre-state map, so the loop
            -- condition can only have failed through the accumulator map,
            -- which means the jid was already collected
            subst hdd
            rw [← hjid] at hcond hl hp2
            have hA : ¬((¬m' d'.jid = true ∨ p = true)) := by
              intro hA
              exact hc ⟨hA, by simp [hl], by simp [hp2], h99⟩
            push_neg at hA
            obtain ⟨hm', hpfalse⟩ := hA
            have hmfalse : m d'.jid = false := by
              rcases hcond with hmf | hptrue
              · exact hmf
              · exact absurd hptrue hpfalse
            have hm'true : m' d'.jid = true := by
              cases hmt : m' d'.jid
              · exact absurd hmt (by simpa using hm')
              · rfl
            rcases (hinv d'.jid).1 hm'true with hmm | hmr
            · rw [hmfalse] at hmm; exact absurd hmm (by simp)
            · exact Or.inl (hjid ▸ hmr)
          · exact Or.inr ⟨d', hdd, hjid, hcond, hl, hp2, h99⟩

/-- C6: a device JID appears in the sender-key distribution fan-out exactly
when some enumerated device entry carries it, sender-key memory does not
already mark it true (or a participant retry forces resend), its JID is not
on a hosted server, and its device number is not 99. -/
theorem senderKeyFanout_membership_iff (devices : List DeviceWithJid)
    (senderKeyMap : String → Bool) (hasParticipant : Bool) (j : String) :
    j ∈ (senderKeyFanout devices senderKeyMap hasParticipant).1 ↔
      ∃ d ∈ devices, d.jid = j ∧ (senderKeyMap j = false ∨ hasParticipant = true) ∧
        isHostedLidUser j = false ∧ isHostedPnUser j = false ∧ d.device ≠ some 99 := by
  have := senderKeyFanout_mem_aux hasParticipant senderKeyMap j devices [] senderKeyMap
    (by intro k; simp)
  simpa [senderKeyFanout] using this

/-- C6 witness: with empty sender-key memory and no participant retry, a
regular device is selected while a hosted device and a device 99 are not. -/
theorem senderKeyFanout_membership_iff_witness :
    "7@lid" ∈ (senderKeyFanout
        [{ user := "7", device := some 0, jid := "7@lid" },
         { user := "9", device := some 99, jid := "9:99@hosted.lid" }]
        (fun _ => false) false).1 ∧
    ¬("9:99@hosted.lid" ∈ (senderKeyFanout
        [{ user := "7", device := some 0, jid := "7@lid" },
         { user := "9", device := some 99, jid := "9:99@hosted.lid" }]
        (fun _ => false) false).1) :=
  ⟨(senderKeyFanout_membership_iff _ _ _ _).2
      ⟨{ user := "7", device := some 0, jid := "7@lid" }, by decide, rfl,
        Or.inl rfl, by decide, by decide, by decide⟩,
   fun hmem => by
    rcases (senderKeyFanout_membership_iff _ _ _ _).1 hmem with ⟨d, hd, hjid, _, _, _, h99⟩
    rcases List.mem_cons.1 hd with h | h
    · rw [h] at hjid; exact absurd hjid (by decide)
    · rcases List.mem_cons.1 h with h2 | h2
      · rw [h2] at h99; exact h99 rfl
      · simp at h2⟩

/-! ## C7: storeLIDPNMappings entry isolation -/

theorem isLidUser_decode_isSome (j : String) (h : isLidUser j = true) :
    (jidDecode j).isSome = true := by
  cases hd : jidDecode j with
  | none => rw [isLidUser, hd] at h; exact absurd h (by simp)
  | some d => simp

theorem isPnUser_decode_isSome (j : String) (h : isPnUser j = true) :
    (jidDecode j).isSome = true := by
  cases hd : jidDecode j with
  | none => rw [isPnUser, hd] at h; exact absurd h (by simp)
  | some d => simp

/-- The storeLIDPNMappings validation step skips a pair whose shape is
invalid, leaving state and collected pair map untouched. -/
theorem storeStep_invalid (st : RepoState) (pair : PnLidPair)
    (acc : List (String × String))
    (h : ¬((isLidUser pair.lid = true ∧ isPnUser pair.pn = true) ∨
           (isPnUser pair.lid = true ∧ isLidUser pair.pn = true))) :
    storeStep st pair acc = some (st, acc) := by
  simp only [storeStep]
  rw [if_pos h]

/-- The decode-failure early return inside storeLIDPNMappings is
unreachable: a pair that passes the shape validation always decodes. -/
theorem storeStep_ne_none (st : RepoState) (pair : PnLidPair)
    (acc : List (String × String)) : storeStep st pair acc ≠ none := by
  by_cases h : ((isLidUser pair.lid = true ∧ isPnUser pair.pn = true) ∨
      (isPnUser pair.lid = true ∧ isLidUser pair.pn = true))
  · have hlid : (jidDecode pair.lid).isSome = true := by
      rcases h with ⟨h1, _⟩ | ⟨h1, _⟩
      · exact isLidUser_decode_isSome _ h1
      · exact isPnUser_decode_isSome _ h1
    have hpn : (jidDecode pair.pn).isSome = true := by
      rcases h with ⟨_, h2⟩ | ⟨_, h2⟩
      · exact isPnUser_decode_isSome _ h2
      · exact isLidUser_decode_isSome _ h2
    cases hd1 : jidDecode pair.lid with
    | none => rw [hd1] at hlid; exact absurd hlid (by simp)
    | some lidDecoded =>
      cases hd2 : jidDecode pair.pn with
      | none => rw [hd2] at hpn; exact absurd hpn (by simp)
      | some pnDecoded =>
        simp only [storeStep, hd1, hd2]
        rw [if_neg (not_not_intro h)]
        cases st.mapCachePn pnDecoded.user with
        | some e => by_cases he : e = lidDecoded.user <;> simp [he]
        | none =>
          cases st.lidMappingCol pnDecoded.user with
          | some e => by_cases he : e = lidDecoded.user <;> simp [he]
          | none => simp
  · rw [storeStep_invalid st pair acc (by simpa using h)]
    simp

/-- Removing an invalid-shape pair from anywhere in the batch does not
change the outcome of the validation loop. -/
theorem storeLoop_skip_invalid (bad : PnLidPair) (ys : List PnLidPair)
    (hbad : ¬((isLidUser bad.lid = true ∧ isPnUser bad.pn = true) ∨
              (isPnUser bad.lid = true ∧ isLidUser bad.pn = true))) :
    ∀ (xs : List PnLidPair) (st : RepoState) (acc : List (String × String)),
      storeLoop st (xs ++ bad :: ys) acc = storeLoop st (xs ++ ys) acc := by
  intro xs
  induction xs with
  | nil =>
    intro st acc
    simp only [List.nil_append, storeLoop, storeStep_invalid st bad acc hbad]
  | cons x rest ih =>
    intro st acc
    simp only [List.cons_append, storeLoop]
    cases hstep : storeStep st x acc with
    | none => rfl
    | some p => exact ih p.1 p.2

/-- The validation loop never takes the decode-failure early return. -/
theorem storeLoop_total : ∀ (pairs : List PnLidPair) (st : RepoState)
    (acc : List (String × String)), ((storeLoop st pairs acc).2).isSome = true := by
  intro pairs
  induction pairs with
  | nil => intro st acc; simp [storeLoop]
  | cons pair rest ih =>
    intro st acc
    simp only [storeLoop]
    cases hstep : storeStep st pair acc with
    | none => exact absurd hstep (storeStep_ne_none st pair acc)
    | some p => exact ih p.1 p.2

/-- C7: in storeLIDPNMappings a malformed pair (shape mismatch) is skipped
in isolation: the remaining pairs of the same call are validated and
persisted exactly as if the malformed pair were absent; and the
decode-failure early return that would abandon the whole batch is
unreachable, so the store never throws from a mapping mismatch. -/
theorem storeLIDPNMappings_skip_invalid_entry :
    (∀ (st : RepoState) (xs ys : List PnLidPair) (bad : PnLidPair),
        ¬((isLidUser bad.lid = true ∧ isPnUser bad.pn = true) ∨
          (isPnUser bad.lid = true ∧ isLidUser bad.pn = true)) →
        storeLIDPNMappings st (xs ++ bad :: ys) = storeLIDPNMappings st (xs ++ ys)) ∧
    (∀ (st : RepoState) (pairs : List PnLidPair) (acc : List (String × String)),
        ((storeLoop st pairs acc).2).isSome = true) := by
  constructor
  · intro st xs ys bad hbad
    unfold storeLIDPNMappings
    rw [storeLoop_skip_invalid bad ys hbad xs st []]
  · intro st pairs acc
    exact storeLoop_total pairs st acc

/-- C7 witness: a pair mixing a LID with a group JID is skipped while the
valid pair around it is still persisted, and the loop outcome is always a
completed pair map. -/
theorem storeLIDPNMappings_skip_invalid_entry_witness :
    storeLIDPNMappings emptyRepoState
        [{ pn := "1@s.whatsapp.net", lid := "2@lid" },
         { pn := "3@g.us", lid := "4@lid" },
         { pn := "5@s.whatsapp.net", lid := "6@lid" }] =
      storeLIDPNMappings emptyRepoState
        [{ pn := "1@s.whatsapp.net", lid := "2@lid" },
         { pn := "5@s.whatsapp.net", lid := "6@lid" }] ∧
    ((storeLoop emptyRepoState
        [{ pn := "1@s.whatsapp.net", lid := "2@lid" },
         { pn := "3@g.us", lid := "4@lid" }] []).2).isSome = true :=
  ⟨storeLIDPNMappings_skip_invalid_entry.1 emptyRepoState
      [{ pn := "1@s.whatsapp.net", lid := "2@lid" }]
      [{ pn := "5@s.whatsapp.net", lid := "6@lid" }]
      { pn := "3@g.us", lid := "4@lid" } (by decide),
   storeLIDPNMappings_skip_invalid_entry.2 emptyRepoState
      [{ pn := "1@s.whatsapp.net", lid := "2@lid" },
       { pn := "3@g.us", lid := "4@lid" }] []⟩

/-! ## Session-column preservation through mapping resolution

The LID mapping lookups fill caches and the lid-mapping column but never
touch the session column; these lemmas record that fact for every function
on the resolution path. -/

theorem storeStep_sessionCol {st st' : RepoState} {p : PnLidPair}
    {acc acc' : List (String × String)} (h : storeStep st p acc = some (st', acc')) :
    st'.sessionCol = st.sessionCol := by
  simp only [storeStep] at h
  split at h
  · simp only [Option.some.injEq, Prod.mk.injEq] at h
    rw [← h.1]
  · split at h
    · split at h
      · split at h <;>
          (simp only [Option.some.injEq, Prod.mk.injEq] at h; rw [← h.1])
      · split at h
        · split at h <;>
            (simp only [Option.some.injEq, Prod.mk.injEq] at h; rw [← h.1])
        · simp only [Option.some.injEq, Prod.mk.injEq] at h
          rw [← h.1]
    · exact absurd h (by simp)

theorem storeLoop_sessionCol : ∀ (pairs : List PnLidPair) (st : RepoState)
    (acc : List (String × String)),
    ((storeLoop st pairs acc).1).sessionCol = st.sessionCol := by
  intro pairs
  induction pairs with
  | nil => intro st acc; rfl
  | cons pair rest ih =>
    intro st acc
    simp only [storeLoop]
    cases hstep : storeStep st pair acc with
    | none => rfl
    | some p => rw [ih p.1 p.2, storeStep_sessionCol hstep]

theorem applyMappingWrites_sessionCol : ∀ (pm : List (String × String)) (st : RepoState),
    (applyMappingWrites st pm).sessionCol = st.sessionCol := by
  intro pm
  induction pm with
  | nil => intro st; rfl
  | cons p rest ih =>
    intro st
    simp only [applyMappingWrites, List.foldl_cons]
    exact ih _

theorem storeLIDPNMappings_sessionCol (st : RepoState) (pairs : List PnLidPair) :
    (storeLIDPNMappings st pairs).sessionCol = st.sessionCol := by
  simp only [storeLIDPNMappings]
  cases hloop : storeLoop st pairs [] with
  | mk st1 opt =>
    cases opt with
    | none => have := storeLoop_sessionCol pairs st []; rw [hloop] at this; exact this
    | some pm =>
      have := storeLoop_sessionCol pairs st []
      rw [hloop] at this
      rw [applyMappingWrites_sessionCol pm st1]
      exact this

theorem lidsStep_sessionCol (st : RepoState) (pn : String)
    (usyncFetch : List (String × List Nat)) (successfulPairs : List (String × PnLidPair)) :
    ((lidsStep st pn usyncFetch successfulPairs).1).sessionCol = st.sessionCol := by
  simp only [lidsStep]
  split
  · rfl
  · split
    · rfl
    · split
      · split <;> rfl
      · split
        · split <;> rfl
        · rfl

theorem lidsLoop1_sessionCol : ∀ (pns : List String) (st : RepoState)
    (usyncFetch : List (String × List Nat)) (successfulPairs : List (String × PnLidPair)),
    ((lidsLoop1 st pns usyncFetch successfulPairs).1).sessionCol = st.sessionCol := by
  intro pns
  induction pns with
  | nil => intro st u sp; rfl
  | cons pn rest ih =>
    intro st u sp
    simp only [lidsLoop1]
    cases hstep : lidsStep st pn u sp with
    | mk st1 opt =>
      have hpres : st1.sessionCol = st.sessionCol := by
        have := lidsStep_sessionCol st pn u sp
        rw [hstep] at this
        exact this
      cases opt with
      | none => exact hpres
      | some p =>
        cases p with
        | mk u' sp' => rw [ih st1 u' sp', hpres]

theorem getLIDsPost_sessionCol (resolver : Resolver) (st1 : RepoState)
    (usyncFetch : List (String × List Nat)) (successfulPairs : List (String × PnLidPair)) :
    ((getLIDsPost resolver st1 usyncFetch successfulPairs).2).sessionCol = st1.sessionCol := by
  simp only [getLIDsPost]
  split
  · rfl
  · split
    · rfl
    · rfl
    · split
      · rw [storeLIDPNMappings_sessionCol]
      · rw [storeLIDPNMappings_sessionCol]

theorem getLIDsForPNs_sessionCol (st : RepoState) (resolver : Resolver) (pns : List String) :
    ((getLIDsForPNs st resolver pns).2).sessionCol = st.sessionCol := by
  simp only [getLIDsForPNs]
  generalize hloop : lidsLoop1 st pns [] [] = res
  obtain ⟨st1, opt⟩ := res
  have hpres : st1.sessionCol = st.sessionCol := by
    have h := lidsLoop1_sessionCol pns st [] []
    rw [hloop] at h
    exact h
  cases opt with
  | none => exact hpres
  | some p =>
    obtain ⟨usyncFetch, successfulPairs⟩ := p
    exact (getLIDsPost_sessionCol resolver st1 usyncFetch successfulPairs).trans hpres

theorem getLIDForPN_sessionCol (st : RepoState) (resolver : Resolver) (pn : String) :
    ((getLIDForPN st resolver pn).2).sessionCol = st.sessionCol := by
  simp only [getLIDForPN]
  generalize hcall : getLIDsForPNs st resolver [pn] = res
  obtain ⟨r, st1⟩ := res
  have hpres : st1.sessionCol = st.sessionCol := by
    have h := getLIDsForPNs_sessionCol st resolver [pn]
    rw [hcall] at h
    exact h
  cases r with
  | error e => exact hpres
  | ok o =>
    cases o with
    | none => exact hpres
    | some l =>
      cases l with
      | nil => exact hpres
      | cons p rest => exact hpres

theorem resolveLIDSignalAddress_sessionCol (st : RepoState) (resolver : Resolver)
    (id : String) :
    ((resolveLIDSignalAddress st resolver id).2).sessionCol = st.sessionCol := by
  rw [resolveLIDSignalAddress]
  split
  · split
    · rfl
    · generalize hcall : getLIDForPN st resolver (resolveParts id).2 = res
      obtain ⟨r, st1⟩ := res
      have hpres : st1.sessionCol = st.sessionCol := by
        have h := getLIDForPN_sessionCol st resolver (resolveParts id).2
        rw [hcall] at h
        exact h
      cases r with
      | error e => exact hpres
      | ok o =>
        cases o with
        | none => exact hpres
        | some lidForPN =>
          dsimp only
          cases jidToSignalProtocolAddress lidForPN with
          | error e => exact hpres
          | ok a => exact hpres
  · rfl

/-! ## C3: deleteSession versus validateSession -/

/-- State used to exhibit the delete/validate asymmetry: user 7 has a stored
LID mapping to user 9, a PN-addressed session at 7.0 and a LID-addressed
session at 9_1.0. -/
def mappedSessionState : RepoState :=
  { emptyRepoState with
    lidMappingCol := fun k => if k = "7" then some "9" else none,
    sessionCol := fun k =>
      if k = "7.0" then some { openSession := true, payload := 0 }
      else if k = "9_1.0" then some { openSession := true, payload := 1 }
      else none }

/-- C3 counterexample: deleteSession deletes the PN-addressed session
record, but validateSession resolves the PN address through the LID mapping
and finds the LID-addressed session, so after a completed deleteSession the
claimed exists-false is violated at this concrete state. -/
theorem deleteSession_validateSession_counterexample :
    (deleteSession mappedSessionState ["7@s.whatsapp.net"]).1 = .ok () ∧
    ((deleteSession mappedSessionState ["7@s.whatsapp.net"]).2).sessionCol "7.0" = none ∧
    ((validateSession (deleteSession mappedSessionState ["7@s.whatsapp.net"]).2
        nullResolver "7@s.whatsapp.net").1).sessionExists = true := by
  refine ⟨rfl, rfl, rfl⟩

theorem mapExcept_ok_mem {α β : Type} (f : α → Except String β) :
    ∀ (l : List α) (out : List β), mapExcept f l = .ok out →
      ∀ x ∈ l, ∃ y, f x = .ok y ∧ y ∈ out := by
  intro l
  induction l with
  | nil => intro out _ x hx; exact absurd hx (by simp)
  | cons a rest ih =>
    intro out hmap x hx
    simp only [mapExcept] at hmap
    cases hfa : f a with
    | error e => rw [hfa] at hmap; exact absurd hmap (by simp)
    | ok y =>
      rw [hfa] at hmap
      cases hrest : mapExcept f rest with
      | error e => rw [hrest] at hmap; exact absurd hmap (by simp)
      | ok ys =>
        rw [hrest] at hmap
        simp only [Except.ok.injEq] at hmap
        subst hmap
        rcases List.mem_cons.1 hx with hxa | hxr
        · subst hxa
          exact ⟨y, hfa, List.mem_cons_self _ _⟩
        · rcases ih ys hrest x hxr with ⟨y', hy', hmem⟩
          exact ⟨y', hy', List.mem_cons_of_mem _ hmem⟩

theorem delFold_preserves_none (addrs : List ProtocolAddress) :
    ∀ (f : String → Option SessionRecord) (k : String), f k = none →
      (addrs.foldl (fun f a => delFun f a.addrStr) f) k = none := by
  induction addrs with
  | nil => intro f k h; exact h
  | cons a rest ih =>
    intro f k h
    rw [List.foldl_cons]
    exact ih _ k (by simp [delFun, h])

theorem delFold_none (addrs : List ProtocolAddress) :
    ∀ (f : String → Option SessionRecord) (a : ProtocolAddress), a ∈ addrs →
      (addrs.foldl (fun f a => delFun f a.addrStr) f) a.addrStr = none := by
  induction addrs with
  | nil => intro f a ha; exact absurd ha (by simp)
  | cons a0 rest ih =>
    intro f a ha
    rw [List.foldl_cons]
    rcases List.mem_cons.1 ha with haa | har
    · subst haa
      exact delFold_preserves_none rest _ _ (by simp [delFun])
    · exact ih _ a har

/-- C3 amended: after deleteSession completes, validateSession reports no
session for each input JID whose Signal address is not redirected to a
different (LID) address by the mapping resolution; the original claim fails
only for PN JIDs whose address resolves to a mapped LID session. -/
theorem deleteSession_validate_false (st st' : RepoState) (resolver : Resolver)
    (jids : List String) (j : String)
    (hdel : deleteSession st jids = (.ok (), st'))
    (hj : j ∈ jids)
    (hres : ∀ a : ProtocolAddress, jidToSignalProtocolAddress j = .ok a →
        (resolveLIDSignalAddress st' resolver a.addrStr).1 = .ok a.addrStr) :
    ((validateSession st' resolver j).1).sessionExists = false := by
  have hne : jids.isEmpty = false := by
    cases jids with
    | nil => exact absurd hj (by simp)
    | cons x xs => rfl
  rw [deleteSession, if_neg (by simp [hne])] at hdel
  cases hmap : mapExcept jidToSignalProtocolAddress jids with
  | error e => rw [hmap] at hdel; exact absurd hdel (by simp)
  | ok addrs =>
    rw [hmap] at hdel
    simp only [Prod.mk.injEq] at hdel
    have hst' : st' = { st with
        sessionCol := addrs.foldl (fun f a => delFun f a.addrStr) st.sessionCol } :=
      hdel.2.symm
    rcases mapExcept_ok_mem jidToSignalProtocolAddress jids addrs hmap j hj with ⟨a, ha, hamem⟩
    have hdeleted : st'.sessionCol a.addrStr = none := by
      rw [hst']
      exact delFold_none addrs st.sessionCol a hamem
    rw [validateSession, ha]
    dsimp only
    have hresa := hres a ha
    have hloadnone : (loadSession st' resolver a.addrStr).1 = none := by
      simp only [loadSession]
      generalize hcall : resolveLIDSignalAddress st' resolver a.addrStr = res at hresa
      obtain ⟨r, st2⟩ := res
      have hpres : st2.sessionCol = st'.sessionCol := by
        have h := resolveLIDSignalAddress_sessionCol st' resolver a.addrStr
        rw [hcall] at h
        exact h
      have hr : r = Except.ok a.addrStr := hresa
      subst hr
      show (st2.sessionCol a.addrStr).map SessionRecord.deserialize = none
      rw [hpres, hdeleted]
      rfl
    generalize hload : loadSession st' resolver a.addrStr = lres
    rw [hload] at hloadnone
    obtain ⟨sess, st3⟩ := lres
    have hsess : sess = none := hloadnone
    subst hsess
    rfl

/-- C3 amended witness: deleting the session of a PN user with no stored or
resolvable mapping leaves validateSession reporting no session. -/
theorem deleteSession_validate_false_witness :
    ((validateSession (deleteSession migScenarioState ["7@s.whatsapp.net"]).2
        nullResolver "7@s.whatsapp.net").1).sessionExists = false :=
  deleteSession_validate_false migScenarioState
    (deleteSession migScenarioState ["7@s.whatsapp.net"]).2 nullResolver
    ["7@s.whatsapp.net"] "7@s.whatsapp.net" rfl (by decide)
    (by
      intro a ha
      have : a = { user := "7", deviceId := 0 } := by
        have : jidToSignalProtocolAddress "7@s.whatsapp.net" =
            .ok { user := "7", deviceId := 0 } := rfl
        rw [this] at ha
        exact (Except.ok.inj ha).symm
      subst this
      rfl)

/-! ## C4: assertSessions wire-JID translation -/

/-- C4 counterexample: a PN JID requiring a session fetch whose mapping
cannot be resolved is dropped from the wire request instead of being kept as
the original JID: the fetch happens, yet the wire list and the key node of
the encrypt-get IQ are empty. -/
theorem assertSessions_unmapped_dropped_counterexample :
    (assertSessions emptyRepoState nullResolver ["7@s.whatsapp.net"] false).1 =
      .ok { didFetch := true, wireJids := [],
            iq := some (mkEncryptGetIq false []) } := rfl

/-- C4 amended: on every fetching run of assertSessions the wire list is
exactly the LID-addressed fetch targets kept verbatim (each of them a member
of the wire list) followed by the lids returned by the mapping resolution of
the PN-addressed fetch targets, with a failed resolution contributing
nothing — so a PN whose resolution fails is omitted rather than kept; the
encrypt-get IQ carries one user child per wire JID, with reason identity
exactly when force is set; and a PN with a cached mapping is translated to
its device-preserving LID. -/
theorem assertSessions_wire_translation_amended :
    (∀ (st : RepoState) (resolver : Resolver) (jids : List String) (force : Bool)
        (r : AssertResult) (st2 : RepoState),
        assertSessions st resolver jids force = (.ok r, st2) → r.didFetch = true →
        ∃ (fetchList : List String) (st1 : RepoState)
          (mapped : Option (List PnLidPair)) (st2' : RepoState),
          assertLoop resolver force st (jsSetDedup jids) [] = (.ok fetchList, st1) ∧
          getLIDsForPNs st1 resolver
            (fetchList.filter (fun j => isPnUser j ∨ isHostedPnUser j)) =
              (.ok mapped, st2') ∧
          r.wireJids = fetchList.filter (fun j => isLidUser j ∨ isHostedLidUser j) ++
            (match mapped with
             | some pairs => pairs.map (fun p => p.lid)
             | none => []) ∧
          (∀ j ∈ fetchList, isLidUser j = true ∨ isHostedLidUser j = true →
            j ∈ r.wireJids) ∧
          r.iq = some (mkEncryptGetIq force r.wireJids)) ∧
    (∀ (force : Bool) (j : String),
        (("reason", "identity") ∈ (mkUserNode force j).attrsOf) ↔ force = true) ∧
    (∀ (force : Bool) (ws : List String),
        (mkEncryptGetIq force ws).childrenOf =
          [BinaryNode.node "key" [] (ws.map (mkUserNode force))]) ∧
    (∀ (st : RepoState) (resolver : Resolver) (pn u l : String) (dev : Option Nat),
        jidDecode pn =
          some { user := u, device := dev, server := "s.whatsapp.net", domainType := 0 } →
        st.mapCachePn u = some l → l ≠ "" →
        getLIDsForPNs st resolver [pn] =
          (.ok (some [PnLidPair.mk pn
            (l ++ (if dev.getD 0 ≠ 0 then ":" ++ toString (dev.getD 0) else "") ++
              "@" ++ "lid")]), st)) := by
  refine ⟨?_, ?_, ?_, ?_⟩
  · intro st resolver jids force r st2 hcall hfetch
    rw [assertSessions] at hcall
    generalize hloop : assertLoop resolver force st (jsSetDedup jids) [] = lres at hcall
    obtain ⟨lr, st1⟩ := lres
    cases lr with
    | error e => exact absurd hcall (by simp)
    | ok fetchList =>
      dsimp only at hcall
      by_cases hemp : fetchList.isEmpty = true
      · rw [if_pos hemp] at hcall
        simp only [Prod.mk.injEq, Except.ok.injEq] at hcall
        rw [← hcall.1] at hfetch
        exact absurd hfetch (by simp)
      · rw [if_neg hemp] at hcall
        generalize hmap : getLIDsForPNs st1 resolver
            (fetchList.filter (fun j => isPnUser j ∨ isHostedPnUser j)) = mres at hcall
        obtain ⟨mr, st2'⟩ := mres
        cases mr with
        | error e => exact absurd hcall (by simp)
        | ok mapped =>
          dsimp only at hcall
          split at hcall
          · exact absurd hcall (by simp)
          · simp only [Prod.mk.injEq, Except.ok.injEq] at hcall
            refine ⟨fetchList, st1, mapped, st2', rfl, hmap, ?_, ?_, ?_⟩
            · rw [← hcall.1]
            · intro j hj hLid
              rw [← hcall.1]
              dsimp only
              exact List.mem_append_left _
                (List.mem_filter.2 ⟨hj, by simp only [decide_eq_true_eq]; exact hLid⟩)
            · rw [← hcall.1]
  · intro force j
    cases force <;> simp [mkUserNode, BinaryNode.attrsOf]
  · intro force ws
    rfl
  · intro st resolver pn u l dev hdec hcache hl
    have hpn : isPnUser pn = true := by simp [isPnUser, hdec]
    simp only [getLIDsForPNs, lidsLoop1, lidsStep, hdec, hpn, hcache]
    simp [hl, getLIDsPost, setAssoc, assocValues]

/-- State with a cached PN-to-LID mapping from user 7 to user 9. -/
def cachedMapState : RepoState :=
  { emptyRepoState with mapCachePn := fun k => if k = "7" then some "9" else none }

/-- C4 amended witness: a concrete fetching call mixing a LID target and a
mapped PN target keeps the LID verbatim and translates the PN (wire list
8 at lid then 9 at lid), exhibits the fetch-loop and mapping-resolution
decomposition of the wire list and the IQ shape, plus the forced reason
attribute and the device-preserving translation of a cached mapping. -/
theorem assertSessions_wire_translation_amended_witness :
    (∃ (r : AssertResult) (st2 : RepoState) (fetchList : List String) (st1 : RepoState)
        (mapped : Option (List PnLidPair)) (st2' : RepoState),
        assertSessions cachedMapState nullResolver ["8@lid", "7@s.whatsapp.net"] false =
          (.ok r, st2) ∧
        r.wireJids = ["8@lid", "9@lid"] ∧
        assertLoop nullResolver false cachedMapState
          (jsSetDedup ["8@lid", "7@s.whatsapp.net"]) [] = (.ok fetchList, st1) ∧
        getLIDsForPNs st1 nullResolver
          (fetchList.filter (fun j => isPnUser j ∨ isHostedPnUser j)) =
            (.ok mapped, st2') ∧
        r.wireJids = fetchList.filter (fun j => isLidUser j ∨ isHostedLidUser j) ++
          (match mapped with
           | some pairs => pairs.map (fun p => p.lid)
           | none => []) ∧
        "8@lid" ∈ r.wireJids ∧
        r.iq = some (mkEncryptGetIq false r.wireJids)) ∧
    (("reason", "identity") ∈ (mkUserNode true "9@lid").attrsOf) ∧
    getLIDsForPNs cachedMapState nullResolver ["7:2@s.whatsapp.net"] =
      (.ok (some [PnLidPair.mk "7:2@s.whatsapp.net" "9:2@lid"]), cachedMapState) := by
  refine ⟨?_, ?_, ?_⟩
  · obtain ⟨fetchList, st1, mapped, st2', hloop, hmap, hwire, hkeep, hiq⟩ :=
      assertSessions_wire_translation_amended.1 cachedMapState nullResolver
        ["8@lid", "7@s.whatsapp.net"] false
        { didFetch := true, wireJids := ["8@lid", "9@lid"],
          iq := some (mkEncryptGetIq false ["8@lid", "9@lid"]) }
        (assertSessions cachedMapState nullResolver ["8@lid", "7@s.whatsapp.net"] false).2
        (by rfl) rfl
    exact ⟨{ didFetch := true, wireJids := ["8@lid", "9@lid"],
             iq := some (mkEncryptGetIq false ["8@lid", "9@lid"]) },
      (assertSessions cachedMapState nullResolver ["8@lid", "7@s.whatsapp.net"] false).2,
      fetchList, st1, mapped, st2', by rfl, rfl, hloop, hmap, hwire, by decide, hiq⟩
  · exact (assertSessions_wire_translation_amended.2.1 true "9@lid").2 rfl
  · exact assertSessions_wire_translation_amended.2.2.2 cachedMapState nullResolver
      "7:2@s.whatsapp.net" "7" "9" (some 2) rfl rfl (by decide)

/-! ## C5: the participant hash never reaches the stanza -/

/-- C5: on the direct 1:1 path the participant hash is computed and written
into extraAttrs only after both fan-out encryptions have already consumed
extraAttrs, and the stanza attributes are assembled from the additional
attributes alone; consequently no assembled stanza ever carries a phash
attribute (unless the caller passed one in), even when the fan-out has
recipients. -/
theorem relayDirect_phash_never_on_stanza
    (h : HostFns) (devices : List DeviceWithJid) (message dsmMessage : Nat)
    (msgId destinationJid msgType : String)
    (additionalAttributes extraAttrs0 : List (String × String))
    (tcToken : Option Nat) (additionalNodes : List BinaryNode)
    (stanza : BinaryNode)
    (hok : relayDirectAssemble h devices message dsmMessage msgId destinationJid msgType
        additionalAttributes extraAttrs0 tcToken additionalNodes = .ok stanza)
    (hclean : ∀ v : String, ("phash", v) ∉ additionalAttributes) :
    ∀ v : String, ("phash", v) ∉ stanza.attrsOf := by
  rw [relayDirectAssemble.eq_def] at hok
  split at hok
  · exact absurd hok (by simp)
  · dsimp only at hok
    split at hok
    · exact absurd hok (by simp)
    · split at hok
      · exact absurd hok (by simp)
      · simp only [Except.ok.injEq] at hok
        subst hok
        intro v hmem
        simp only [BinaryNode.attrsOf, List.mem_append] at hmem
        rcases hmem with hfixed | hadd
        · simp at hfixed
        · exact hclean v hadd

/-- Host functions for the concrete direct-send run: identity patcher and an
encryption stub returning a normal whisper message. -/
def hostTestFns : HostFns :=
  { patcher := fun m _ => Sum.inl m,
    encrypt := fun _ _ => { encType := "msg", ciphertext := 0 },
    meId := "5@s.whatsapp.net",
    meLid := none }

/-- C5 witness: a direct send with one recipient device assembles a stanza
whose participants child carries that recipient, yet the stanza attributes
contain no phash. -/
theorem relayDirect_phash_never_on_stanza_witness :
    relayDirectAssemble hostTestFns
        [{ user := "7", device := some 0, jid := "7@s.whatsapp.net" }] 1 2 "m1"
        "7@s.whatsapp.net" "text" [] [] none [] =
      .ok (BinaryNode.node "message"
        [("id", "m1"), ("to", "7@s.whatsapp.net"), ("type", "text")]
        [BinaryNode.node "participants" []
          [BinaryNode.node "to" [("jid", "7@s.whatsapp.net")]
            [BinaryNode.node "enc" [("v", "2"), ("type", "msg")] [BinaryNode.raw 0]]]]) ∧
    (∀ v : String,
      ("phash", v) ∉ (BinaryNode.node "message"
        [("id", "m1"), ("to", "7@s.whatsapp.net"), ("type", "text")]
        [BinaryNode.node "participants" []
          [BinaryNode.node "to" [("jid", "7@s.whatsapp.net")]
            [BinaryNode.node "enc" [("v", "2"), ("type", "msg")] [BinaryNode.raw 0]]]]).attrsOf) :=
  ⟨rfl,
   relayDirect_phash_never_on_stanza hostTestFns
     [{ user := "7", device := some 0, jid := "7@s.whatsapp.net" }] 1 2 "m1"
     "7@s.whatsapp.net" "text" [] [] none [] _ rfl (by simp)⟩

/-! ## Generic list lemmas for the migration proofs -/

theorem mem_jsSetDedup : ∀ (l : List String) (x : String), x ∈ jsSetDedup l ↔ x ∈ l := by
  intro l
  induction l with
  | nil => intro x; simp [jsSetDedup]
  | cons y ys ih =>
    intro x
    simp only [jsSetDedup]
    by_cases hc : (jsSetDedup ys).contains y = true
    · rw [if_pos hc]
      constructor
      · intro hx
        rcases List.mem_cons.1 hx with hxy | hxe
        · exact List.mem_cons.2 (Or.inl hxy)
        · exact List.mem_cons.2 (Or.inr ((ih x).1 (List.mem_of_mem_erase hxe)))
      · intro hx
        rcases List.mem_cons.1 hx with hxy | hxy
        · exact List.mem_cons.2 (Or.inl hxy)
        · by_cases hxy2 : x = y
          · exact List.mem_cons.2 (Or.inl hxy2)
          · exact List.mem_cons.2 (Or.inr ((List.mem_erase_of_ne hxy2).2 ((ih x).2 hxy)))
    · rw [if_neg hc]
      constructor
      · intro hx
        rcases List.mem_cons.1 hx with hxy | hxe
        · exact List.mem_cons.2 (Or.inl hxy)
        · exact List.mem_cons.2 (Or.inr ((ih x).1 hxe))
      · intro hx
        rcases List.mem_cons.1 hx with hxy | hxy
        · exact List.mem_cons.2 (Or.inl hxy)
        · exact List.mem_cons.2 (Or.inr ((ih x).2 hxy))

theorem jsSetDedup_of_nodup : ∀ (l : List String), l.Nodup → jsSetDedup l = l := by
  intro l
  induction l with
  | nil => intro _; rfl
  | cons y ys ih =>
    intro hnd
    have hy : y ∉ ys := (List.nodup_cons.1 hnd).1
    have hyd : (jsSetDedup ys).contains y = false := by
      cases hcont : (jsSetDedup ys).contains y
      · rfl
      · exact absurd ((mem_jsSetDedup ys y).1 (by simpa using hcont)) hy
    simp only [jsSetDedup]
    rw [if_neg (by rw [hyd]; simp), ih (List.nodup_cons.1 hnd).2]

theorem mapExcept_ok_of_forall {α β : Type} (f : α → Except String β) (g : α → β) :
    ∀ l : List α, (∀ x ∈ l, f x = .ok (g x)) → mapExcept f l = .ok (l.map g) := by
  intro l
  induction l with
  | nil => intro _; rfl
  | cons a rest ih =>
    intro hall
    simp only [mapExcept, hall a (List.mem_cons_self _ _),
      ih (fun x hx => hall x (List.mem_cons_of_mem _ hx))]
    rfl

theorem filterMap_if_eq_map_filter {α β : Type} (p : α → Bool) (f : α → β) :
    ∀ l : List α,
      l.filterMap (fun x => if p x then some (f x) else none) = (l.filter p).map f := by
  intro l
  induction l with
  | nil => rfl
  | cons a rest ih =>
    by_cases hp : p a = true
    · simp [List.filterMap_cons, List.filter_cons, hp, ih]
    · simp only [Bool.not_eq_true] at hp
      simp [List.filterMap_cons, List.filter_cons, hp, ih]

/-- The per-op contribution to the batched session update. -/
def migEntries (pnSessions : String → Option SessionRecord) (op : MigrationOp) :
    List (String × Option SessionRecord) :=
  match pnSessions op.fromAddr.addrStr with
  | none => []
  | some pnSession =>
    let fromSession := SessionRecord.deserialize pnSession
    if fromSession.haveOpenSession then
      [(op.toAddr.addrStr, some fromSession.serialize), (op.fromAddr.addrStr, none)]
    else []

/-- Whether an op carries an open loadable session. -/
def migOpenB (pnSessions : String → Option SessionRecord) (op : MigrationOp) : Bool :=
  match pnSessions op.fromAddr.addrStr with
  | none => false
  | some pnSession => (SessionRecord.deserialize pnSession).haveOpenSession

theorem migrationStep_foldl (pnSessions : String → Option SessionRecord) :
    ∀ (ops : List MigrationOp) (u0 : List (String × Option SessionRecord)) (n0 : Nat),
      ops.foldl (migrationStep pnSessions) (u0, n0) =
        (u0 ++ ops.flatMap (migEntries pnSessions), n0 + ops.countP (migOpenB pnSessions)) := by
  intro ops
  induction ops with
  | nil => intro u0 n0; simp
  | cons op rest ih =>
    intro u0 n0
    rw [List.foldl_cons]
    have hstep : migrationStep pnSessions (u0, n0) op =
        (u0 ++ migEntries pnSessions op, n0 + (if migOpenB pnSessions op then 1 else 0)) := by
      cases hs : pnSessions op.fromAddr.addrStr with
      | none => simp [migrationStep, migEntries, migOpenB, hs]
      | some pnSession =>
        by_cases hopen : (SessionRecord.deserialize pnSession).haveOpenSession = true
        · simp [migrationStep, migEntries, migOpenB, hs, hopen]
        · simp only [Bool.not_eq_true] at hopen
          simp [migrationStep, migEntries, migOpenB, hs, hopen]
    rw [hstep, ih]
    rw [Prod.mk.injEq]
    constructor
    · rw [show (op :: rest).flatMap (migEntries pnSessions) =
          migEntries pnSessions op ++ rest.flatMap (migEntries pnSessions) from rfl,
        List.append_assoc]
    · rw [List.countP_cons]
      by_cases hob : migOpenB pnSessions op = true
      · simp only [hob, if_true]
        omega
      · simp only [Bool.not_eq_true] at hob
        simp only [hob, Bool.false_eq_true, if_false]
        omega

theorem lookupLast_append {α : Type} (a b : List (String × α)) (k : String) :
    lookupLast (a ++ b) k =
      match lookupLast b k with
      | some v => some v
      | none => lookupLast a k := by
  induction a with
  | nil =>
    rw [List.nil_append]
    cases lookupLast b k <;> rfl
  | cons e a' ih =>
    rw [List.cons_append]
    show (match lookupLast (a' ++ b) k with
          | some v => some v
          | none => if e.1 = k then some e.2 else none) = _
    rw [ih]
    cases hb : lookupLast b k with
    | some v => rfl
    | none =>
      show (match lookupLast a' k with
            | some v => some v
            | none => if e.1 = k then some e.2 else none) = _
      rfl

theorem lookupLast_eq_none {α : Type} :
    ∀ (l : List (String × α)) (k : String), (∀ e ∈ l, e.1 ≠ k) → lookupLast l k = none := by
  intro l
  induction l with
  | nil => intro k _; rfl
  | cons e rest ih =>
    intro k hall
    show (match lookupLast rest k with
          | some v => some v
          | none => if e.1 = k then some e.2 else none) = none
    rw [ih k (fun x hx => hall x (List.mem_cons_of_mem _ hx))]
    rw [if_neg (hall e (List.mem_cons_self _ _))]

/-! ## Canonical-device machinery for the migration theorems -/

/-- The device JID that migrateCore rebuilds for a numeric, non-hosted
device number. -/
def mkMigJid (u : String) (n : Nat) : String :=
  if n = 0 then u ++ "@s.whatsapp.net"
  else u ++ ":" ++ toString n ++ "@s.whatsapp.net"

/-- The computational facts needed of one device-list entry: it is the
canonical print of a non-99 device number, the key split recovers it, and
the rebuilt PN JID and the transferred LID JID decode to their canonical
forms. All facts are decidable and discharged by evaluation at witnesses. -/
def canonicalDeviceOK (u tu : String) (d : String) : Bool :=
  match jsParseInt d with
  | none => false
  | some n =>
    decide (n ≠ 99) && decide (toString n = d) &&
    decide (((splitStr '.' (u ++ "." ++ d)).drop 1).headD "" = d) &&
    decide (jidDecode (mkMigJid u n) =
      some { user := u, device := if n = 0 then none else some n,
             server := "s.whatsapp.net", domainType := 0 }) &&
    decide (jidDecode (jidEncode tu "lid" (some n)) =
      some { user := tu, device := if n = 0 then none else some n,
             server := "lid", domainType := 1 })

theorem canonicalDeviceOK_spec {u tu d : String} (h : canonicalDeviceOK u tu d = true) :
    ∃ n : Nat, jsParseInt d = some n ∧ n ≠ 99 ∧ toString n = d ∧
      ((splitStr '.' (u ++ "." ++ d)).drop 1).headD "" = d ∧
      jidDecode (mkMigJid u n) =
        some { user := u, device := if n = 0 then none else some n,
               server := "s.whatsapp.net", domainType := 0 } ∧
      jidDecode (jidEncode tu "lid" (some n)) =
        some { user := tu, device := if n = 0 then none else some n,
               server := "lid", domainType := 1 } := by
  unfold canonicalDeviceOK at h
  cases hp : jsParseInt d with
  | none => rw [hp] at h; exact absurd h (by simp)
  | some n =>
    rw [hp] at h
    simp only [Bool.and_eq_true, decide_eq_true_eq] at h
    exact ⟨n, rfl, h.1.1.1.1, h.1.1.1.2, h.1.1.2, h.1.2, h.2⟩

theorem mig_fromAddr {u : String} (hU : u ≠ "") {n : Nat} (h99 : n ≠ 99)
    (hdec : jidDecode (mkMigJid u n) =
      some { user := u, device := if n = 0 then none else some n,
             server := "s.whatsapp.net", domainType := 0 }) :
    jidToSignalProtocolAddress (mkMigJid u n) = .ok { user := u, deviceId := n } := by
  rw [jidToSignalProtocolAddress, hdec]
  dsimp only
  rw [if_neg hU]
  rw [if_neg (by
    rintro ⟨hd, -, -⟩
    by_cases hn : n = 0
    · rw [if_pos hn] at hd; exact absurd hd (by simp)
    · rw [if_neg hn] at hd
      exact h99 (Option.some.inj hd))]
  by_cases hn : n = 0
  · subst hn; simp
  · simp [hn]

theorem mig_toAddr {tu : String} (hTU : tu ≠ "") {n : Nat} (h99 : n ≠ 99)
    (hdec : jidDecode (jidEncode tu "lid" (some n)) =
      some { user := tu, device := if n = 0 then none else some n,
             server := "lid", domainType := 1 }) :
    jidToSignalProtocolAddress (jidEncode tu "lid" (some n)) =
      .ok { user := tu ++ "_" ++ "1", deviceId := n } := by
  rw [jidToSignalProtocolAddress, hdec]
  dsimp only
  rw [if_neg hTU]
  rw [if_neg (by
    rintro ⟨hd, -, -⟩
    by_cases hn : n = 0
    · rw [if_pos hn] at hd; exact absurd hd (by simp)
    · rw [if_neg hn] at hd
      exact h99 (Option.some.inj hd))]
  by_cases hn : n = 0
  · subst hn; rfl
  · have hg : ((if n = 0 then none else some n : Option Nat)).getD 0 = n := by
      rw [if_neg hn]
      rfl
    rw [hg]
    rfl

theorem mig_transfer {u tu toJid : String} {n : Nat} {tdec : DecodedJid}
    (hto : jidDecode toJid = some tdec) (htu : tdec.user = tu) (h99 : n ≠ 99)
    (hdec : jidDecode (mkMigJid u n) =
      some { user := u, device := if n = 0 then none else some n,
             server := "s.whatsapp.net", domainType := 0 }) :
    transferDevice (mkMigJid u n) toJid = jidEncode tu "lid" (some n) := by
  rw [transferDevice, hdec, hto]
  dsimp only
  by_cases hn : n = 0
  · subst hn
    rw [htu]
    rfl
  · rw [if_neg hn]
    simp only [Option.getD_some]
    rw [if_neg h99, htu]

theorem mig_deviceId {u : String} {n : Nat}
    (hdec : jidDecode (mkMigJid u n) =
      some { user := u, device := if n = 0 then none else some n,
             server := "s.whatsapp.net", domainType := 0 }) :
    ((jidDecode (mkMigJid u n)).bind (fun d => d.device)).getD 0 = n := by
  rw [hdec]
  by_cases hn : n = 0
  · subst hn; simp
  · simp [hn]

/-- The migration operation produced for one canonical device entry. -/
def opOf (u tu : String) (d : String) : MigrationOp :=
  { fromAddr := { user := u, deviceId := (jsParseInt d).getD 0 },
    toAddr := { user := tu ++ "_" ++ "1", deviceId := (jsParseInt d).getD 0 },
    deviceId := (jsParseInt d).getD 0,
    user := u,
    lidWithDevice := jidEncode tu "lid" (some ((jsParseInt d).getD 0)) }

theorem migBuildOp_ok {u tu toJid : String} {tdec : DecodedJid}
    (hU : u ≠ "") (hTU : tu ≠ "")
    (hto : jidDecode toJid = some tdec) (htu : tdec.user = tu)
    {d : String} (hcanon : canonicalDeviceOK u tu d = true) :
    migBuildOp u toJid (mkMigJid u ((jsParseInt d).getD 0)) = .ok (opOf u tu d) := by
  rcases canonicalDeviceOK_spec hcanon with ⟨n, hp, h99, htos, hsplit, hdecm, hdecl⟩
  rw [hp]
  simp only [Option.getD_some]
  rw [migBuildOp, mig_fromAddr hU h99 hdecm]
  dsimp only [Except.bind]
  rw [mig_transfer hto htu h99 hdecm, mig_toAddr hTU h99 hdecl]
  dsimp only [Except.map]
  rw [opOf]
  simp only [hp, Option.getD_some]
  rw [mig_deviceId hdecm]

theorem str_append_left_cancel {a b c : String} (h : a ++ b = a ++ c) : b = c := by
  have hd := congrArg String.data h
  simp only [String.data_append] at hd
  have hbc := List.append_cancel_left hd
  cases b
  cases c
  exact congrArg String.mk hbc

theorem mapExcept_map {α β γ : Type} (f : β → Except String γ) (g : α → β) :
    ∀ l : List α, mapExcept f (l.map g) = mapExcept (fun x => f (g x)) l := by
  intro l
  induction l with
  | nil => rfl
  | cons a rest ih =>
    simp only [List.map_cons, mapExcept, ih]

theorem countP_congr_mem {α : Type} (p q : α → Bool) :
    ∀ l : List α, (∀ a ∈ l, p a = q a) → l.countP p = l.countP q := by
  intro l
  induction l with
  | nil => intro _; rfl
  | cons a rest ih =>
    intro h
    rw [List.countP_cons, List.countP_cons, h a (List.mem_cons_self _ _),
      ih (fun x hx => h x (List.mem_cons_of_mem _ hx))]

/-- Boolean form of session presence under a key. -/
def presB (st : RepoState) (u d : String) : Bool :=
  (st.sessionCol (u ++ "." ++ d)).isSome

/-- Boolean form of open-session presence under a key. -/
def openB (st : RepoState) (u d : String) : Bool :=
  match st.sessionCol (u ++ "." ++ d) with
  | some s => s.openSession
  | none => false

/-- The LID-side address string the migration writes for a device entry. -/
def lidKeyOf (tu d : String) : String := tu ++ "_" ++ "1" ++ "." ++ d

theorem migSessionJid_canonical {st : RepoState} {u tu d : String}
    (hc : canonicalDeviceOK u tu d = true) :
    migSessionJid st u (u ++ "." ++ d) =
      if presB st u d then some (mkMigJid u ((jsParseInt d).getD 0)) else none := by
  rcases canonicalDeviceOK_spec hc with ⟨n, hp, h99, htos, hsplit, hdecm, hdecl⟩
  rw [migSessionJid]
  cases hsess : st.sessionCol (u ++ "." ++ d) with
  | none =>
    have : presB st u d = false := by simp [presB, hsess]
    rw [this]
    rfl
  | some s =>
    have hpres : presB st u d = true := by simp [presB, hsess]
    rw [hpres, if_pos rfl]
    dsimp only
    rw [hsplit]
    have hdne : d ≠ "" := by
      intro hd
      rw [hd, show jsParseInt "" = (none : Option Nat) from rfl] at hp
      exact Option.noConfusion hp
    rw [if_neg hdne, hp, Option.getD_some]
    by_cases hn : n = 0
    · subst hn
      rfl
    · have h0 : ¬(some n = some 0) := fun hc0 => hn (Option.some.inj hc0)
      have h99o : ¬(some n = some 99) := fun hc9 => h99 (Option.some.inj hc9)
      rw [if_neg h0, if_neg h99o, mkMigJid, if_neg hn]

/-- Keys appearing in the batched update list built over a device list. -/
theorem migUpdate_keys {st : RepoState} {u tu : String} :
    ∀ (l : List String) (e : String × Option SessionRecord),
      e ∈ l.flatMap (fun d =>
        if openB st u d then
          [(lidKeyOf tu d, st.sessionCol (u ++ "." ++ d)), (u ++ "." ++ d, (none : Option SessionRecord))]
        else []) →
      ∃ d ∈ l, e.1 = lidKeyOf tu d ∨ e.1 = u ++ "." ++ d := by
  intro l e he
  rcases List.mem_flatMap.1 he with ⟨d, hd, hmem⟩
  by_cases ho : openB st u d = true
  · rw [if_pos ho] at hmem
    rcases List.mem_cons.1 hmem with h1 | h2
    · exact ⟨d, hd, Or.inl (by rw [h1])⟩
    · rcases List.mem_cons.1 h2 with h3 | h4
      · exact ⟨d, hd, Or.inr (by rw [h3])⟩
      · exact absurd h4 (by simp)
  · rw [if_neg ho] at hmem
    exact absurd hmem (by simp)

/-- The two batched writes contributed by one open device entry: store the
record under the LID key, null the PN key. -/
def updEntry (st : RepoState) (u tu : String) (d : String) :
    List (String × Option SessionRecord) :=
  if openB st u d then
    [(lidKeyOf tu d, st.sessionCol (u ++ "." ++ d)),
     (u ++ "." ++ d, (none : Option SessionRecord))]
  else []

theorem migUpdate_lookup (st : RepoState) (u tu : String) :
    ∀ l : List String, l.Nodup →
      (∀ d ∈ l, ∀ d' ∈ l, u ++ "." ++ d ≠ lidKeyOf tu d') →
      (∀ d ∈ l, ∀ d' ∈ l, d ≠ d' → lidKeyOf tu d ≠ lidKeyOf tu d') →
      ∀ d ∈ l, openB st u d = true →
        lookupLast (l.flatMap (updEntry st u tu)) (u ++ "." ++ d) = some none ∧
        lookupLast (l.flatMap (updEntry st u tu)) (lidKeyOf tu d) =
          some (st.sessionCol (u ++ "." ++ d)) := by
  intro l
  induction l with
  | nil => intro _ _ _ d hd; exact absurd hd (by simp)
  | cons d0 rest ih =>
    intro hnd hcross hlinj d hd hod
    have hstep : (d0 :: rest).flatMap (updEntry st u tu) =
        updEntry st u tu d0 ++ rest.flatMap (updEntry st u tu) := rfl
    rw [hstep, lookupLast_append, lookupLast_append]
    rcases List.mem_cons.1 hd with hdd | hdr
    · subst hdd
      have hd0nr : d ∉ rest := (List.nodup_cons.1 hnd).1
      have hnone1 : lookupLast (rest.flatMap (updEntry st u tu)) (u ++ "." ++ d) = none := by
        apply lookupLast_eq_none
        intro e he
        rcases migUpdate_keys rest e he with ⟨d', hd', hcase⟩
        rcases hcase with hlid | hpn
        · rw [hlid]
          intro hcontr
          exact hcross d (List.mem_cons_self _ _) d' (List.mem_cons_of_mem _ hd') hcontr.symm
        · rw [hpn]
          intro hcontr
          have : d' = d := str_append_left_cancel hcontr
          exact hd0nr (this ▸ hd')
      have hnone2 : lookupLast (rest.flatMap (updEntry st u tu)) (lidKeyOf tu d) = none := by
        apply lookupLast_eq_none
        intro e he
        rcases migUpdate_keys rest e he with ⟨d', hd', hcase⟩
        rcases hcase with hlid | hpn
        · rw [hlid]
          intro hcontr
          have hne : d' ≠ d := fun hcc => hd0nr (hcc ▸ hd')
          exact hlinj d' (List.mem_cons_of_mem _ hd') d (List.mem_cons_self _ _) hne hcontr
        · rw [hpn]
          exact hcross d' (List.mem_cons_of_mem _ hd') d (List.mem_cons_self _ _)
      rw [hnone1, hnone2]
      have hself : u ++ "." ++ d ≠ lidKeyOf tu d :=
        hcross d (List.mem_cons_self _ _) d (List.mem_cons_self _ _)
      constructor
      · rw [updEntry, if_pos hod]
        simp [lookupLast]
      · rw [updEntry, if_pos hod]
        simp [lookupLast, hself]
    · have hrest := ih (List.nodup_cons.1 hnd).2
        (fun a ha b hb => hcross a (List.mem_cons_of_mem _ ha) b (List.mem_cons_of_mem _ hb))
        (fun a ha b hb => hlinj a (List.mem_cons_of_mem _ ha) b (List.mem_cons_of_mem _ hb))
        d hdr hod
      rw [hrest.1, hrest.2]
      exact ⟨rfl, rfl⟩

theorem opOf_fromAddrStr {u tu d : String} (hc : canonicalDeviceOK u tu d = true) :
    (opOf u tu d).fromAddr.addrStr = u ++ "." ++ d := by
  rcases canonicalDeviceOK_spec hc with ⟨n, hp, _, htos, _, _, _⟩
  simp only [opOf, ProtocolAddress.addrStr, hp, Option.getD_some, htos]

theorem opOf_toAddrStr {u tu d : String} (hc : canonicalDeviceOK u tu d = true) :
    (opOf u tu d).toAddr.addrStr = lidKeyOf tu d := by
  rcases canonicalDeviceOK_spec hc with ⟨n, hp, _, htos, _, _, _⟩
  simp only [opOf, ProtocolAddress.addrStr, hp, Option.getD_some, htos, lidKeyOf]

theorem flatMap_congr_mem {α β : Type} (f g : α → List β) :
    ∀ l : List α, (∀ a ∈ l, f a = g a) → l.flatMap f = l.flatMap g := by
  intro l
  induction l with
  | nil => intro _; rfl
  | cons a rest ih =>
    intro h
    show f a ++ rest.flatMap f = g a ++ rest.flatMap g
    rw [h a (List.mem_cons_self _ _), ih (fun x hx => h x (List.mem_cons_of_mem _ hx))]

theorem openB_presB {st : RepoState} {u d : String} (h : openB st u d = true) :
    presB st u d = true := by
  rw [openB] at h
  rw [presB]
  cases hsess : st.sessionCol (u ++ "." ++ d) with
  | none => rw [hsess] at h; exact absurd h (by simp)
  | some s => simp

theorem lidKeyOf_inj {tu d d' : String} (h : lidKeyOf tu d = lidKeyOf tu d') : d = d' :=
  str_append_left_cancel h

theorem migrateFinish_char (st : RepoState) (u tu : String) (act : List String)
    (hnodup : act.Nodup)
    (hcanon : ∀ d ∈ act, canonicalDeviceOK u tu d = true)
    (hcross : ∀ d ∈ act, ∀ d' ∈ act, u ++ "." ++ d ≠ lidKeyOf tu d') :
    ∃ st' trace,
      migrateFinish st ((act.filter (fun d => presB st u d)).map (opOf u tu)) =
        (.ok { migrated := act.countP (fun d => openB st u d),
               skipped := act.countP (fun d => presB st u d) -
                 act.countP (fun d => openB st u d),
               total := act.countP (fun d => presB st u d) }, st', trace) ∧
      (∀ d ∈ act, openB st u d = true →
          st'.sessionCol (u ++ "." ++ d) = none ∧
          st'.sessionCol (lidKeyOf tu d) = st.sessionCol (u ++ "." ++ d)) ∧
      (act.countP (fun d => openB st u d) = 0 → trace = [] ∧ st' = st) ∧
      (0 < act.countP (fun d => openB st u d) →
          ∃ (ups : List (String × Option SessionRecord)) (keys : List String),
          trace = StoreEvent.setSessions ups :: keys.map StoreEvent.cacheMigrated ∧
          ∀ d ∈ act, openB st u d = true →
            lookupLast ups (u ++ "." ++ d) = some none ∧
            lookupLast ups (lidKeyOf tu d) = some (st.sessionCol (u ++ "." ++ d))) := by
  set actP := act.filter (fun d => presB st u d) with hactP
  set ops := actP.map (opOf u tu) with hops
  have hmemP : ∀ d ∈ actP, d ∈ act := by
    intro d hd
    exact List.mem_of_mem_filter hd
  -- the batch-loaded sessions agree with the session column on every op key
  have hpnS : ∀ d ∈ actP,
      migratePnSessions st ops (u ++ "." ++ d) = st.sessionCol (u ++ "." ++ d) := by
    intro d hd
    rw [migratePnSessions]
    have hkmem : (u ++ "." ++ d) ∈ ops.map (fun op => op.fromAddr.addrStr) := by
      rw [hops, List.map_map]
      refine List.mem_map.2 ⟨d, hd, ?_⟩
      exact opOf_fromAddrStr (hcanon d (hmemP d hd))
    have hcont : ((jsSetDedup (ops.map (fun op => op.fromAddr.addrStr))).contains
        (u ++ "." ++ d)) = true := by
      have := (mem_jsSetDedup _ _).2 hkmem
      simpa using this
    rw [if_pos hcont]
  -- the per-op open test agrees with the pre-state open test
  have hopen : ∀ d ∈ actP,
      migOpenB (migratePnSessions st ops) (opOf u tu d) = openB st u d := by
    intro d hd
    rw [migOpenB, opOf_fromAddrStr (hcanon d (hmemP d hd)), hpnS d hd, openB]
    cases st.sessionCol (u ++ "." ++ d) with
    | none => rfl
    | some s => rfl
  -- the per-op update entries agree with the canonical entries
  have hentries : ∀ d ∈ actP,
      migEntries (migratePnSessions st ops) (opOf u tu d) = updEntry st u tu d := by
    intro d hd
    rw [migEntries, opOf_fromAddrStr (hcanon d (hmemP d hd)), hpnS d hd, updEntry]
    cases hsess : st.sessionCol (u ++ "." ++ d) with
    | none =>
      have : openB st u d = false := by rw [openB, hsess]
      rw [this]
      rfl
    | some s =>
      have hob : openB st u d = s.openSession := by rw [openB, hsess]
      by_cases hso : s.openSession = true
      · rw [hob, hso, if_pos rfl]
        dsimp only
        rw [opOf_toAddrStr (hcanon d (hmemP d hd))]
        rw [if_pos (show s.deserialize.haveOpenSession = true from hso)]
        rfl
      · simp only [Bool.not_eq_true] at hso
        rw [hob, hso]
        dsimp only
        rw [if_neg (by rw [SessionRecord.haveOpenSession, SessionRecord.deserialize, hso]; simp)]
        rfl
  have hflat : ops.flatMap (migEntries (migratePnSessions st ops)) =
      actP.flatMap (updEntry st u tu) := by
    rw [hops, List.flatMap_map]
    exact flatMap_congr_mem _ _ actP hentries
  have hcount : ops.countP (migOpenB (migratePnSessions st ops)) =
      act.countP (fun d => openB st u d) := by
    rw [hops, List.countP_map]
    have h1 : actP.countP (fun d => migOpenB (migratePnSessions st ops) (opOf u tu d)) =
        actP.countP (fun d => openB st u d) := countP_congr_mem _ _ actP hopen
    rw [show (migOpenB (migratePnSessions st ops) ∘ opOf u tu) =
        (fun d => migOpenB (migratePnSessions st ops) (opOf u tu d)) from rfl, h1, hactP,
      List.countP_filter]
    apply countP_congr_mem
    intro d _
    rw [openB, presB]
    cases st.sessionCol (u ++ "." ++ d) with
    | none => rfl
    | some s => simp
  have hlen : ops.length = act.countP (fun d => presB st u d) := by
    rw [hops, List.length_map, hactP]
    rw [List.countP_eq_length_filter]
  have hfold : ops.foldl (migrationStep (migratePnSessions st ops)) ([], 0) =
      (actP.flatMap (updEntry st u tu), act.countP (fun d => openB st u d)) := by
    rw [migrationStep_foldl, List.nil_append, Nat.zero_add, hflat, hcount]
  have hopenP : ∀ d ∈ act, openB st u d = true → d ∈ actP := by
    intro d hd hod
    rw [hactP]
    exact List.mem_filter.2 ⟨hd, openB_presB hod⟩
  by_cases hz : act.countP (fun d => openB st u d) = 0
  · -- no open session: the batch is empty, nothing is written
    have hempty : (actP.flatMap (updEntry st u tu)).isEmpty = true := by
      rw [List.isEmpty_iff, List.flatMap_eq_nil_iff]
      intro d hd
      have : ¬ (fun d => openB st u d) d = true :=
        (List.countP_eq_zero.1 hz) d (hmemP d hd)
      rw [updEntry, if_neg this]
    refine ⟨st, [], ?_, ?_, fun _ => ⟨rfl, rfl⟩, fun hpos => absurd hz (by omega)⟩
    · rw [migrateFinish, hfold]
      dsimp only
      rw [if_pos hempty, hlen, hz]
    · intro d hd hod
      exact absurd ((List.countP_eq_zero.1 hz) d hd) (by simp [hod])
  · -- at least one open session: one batched write followed by cache marks
    have hnonempty : ¬((actP.flatMap (updEntry st u tu)).isEmpty = true) := by
      rw [List.isEmpty_iff, List.flatMap_eq_nil_iff]
      intro hall
      apply hz
      rw [List.countP_eq_zero]
      intro d hd
      intro hod
      have hdP := hopenP d hd hod
      have := hall d hdP
      rw [updEntry, if_pos hod] at this
      exact absurd this (by simp)
    have hlookup := migUpdate_lookup st u tu actP
      (List.Nodup.filter _ hnodup)
      (fun a ha b hb => hcross a (hmemP a ha) b (hmemP b hb))
      (fun a _ b _ hab hcc => hab (lidKeyOf_inj hcc))
    refine ⟨{ st with
        sessionCol := applyBatch st.sessionCol (actP.flatMap (updEntry st u tu)),
        migratedCache := (migCacheKeys (actP.flatMap (updEntry st u tu)) ops).foldl
          (fun m k => fun x => if x = k then true else m x) st.migratedCache },
      StoreEvent.setSessions (actP.flatMap (updEntry st u tu)) ::
        (migCacheKeys (actP.flatMap (updEntry st u tu)) ops).map StoreEvent.cacheMigrated,
      ?_, ?_, fun hzz => absurd hzz hz, fun _ => ⟨actP.flatMap (updEntry st u tu),
      migCacheKeys (actP.flatMap (updEntry st u tu)) ops, rfl, ?_⟩⟩
    · rw [migrateFinish, hfold]
      dsimp only
      rw [if_neg hnonempty, hlen]
    · intro d hd hod
      have hdP := hopenP d hd hod
      have hl := hlookup d hdP hod
      constructor
      · show applyBatch st.sessionCol (actP.flatMap (updEntry st u tu)) (u ++ "." ++ d) = none
        rw [applyBatch, hl.1]
      · show applyBatch st.sessionCol (actP.flatMap (updEntry st u tu)) (lidKeyOf tu d) =
          st.sessionCol (u ++ "." ++ d)
        rw [applyBatch, hl.2]
    · intro d hd hod
      exact hlookup d (hopenP d hd hod) hod

theorem filterMap_congr_mem {α β : Type} (f g : α → Option β) :
    ∀ l : List α, (∀ a ∈ l, f a = g a) → l.filterMap f = l.filterMap g := by
  intro l
  induction l with
  | nil => intro _; rfl
  | cons a rest ih =>
    intro h
    rw [List.filterMap_cons, List.filterMap_cons, h a (List.mem_cons_self _ _),
      ih (fun x hx => h x (List.mem_cons_of_mem _ hx))]

theorem migrateCore_char (st : RepoState) (u tu toJid : String) (tdec : DecodedJid)
    (hU : u ≠ "") (hTU : tu ≠ "")
    (hto : jidDecode toJid = some tdec) (htu : tdec.user = tu)
    (act : List String)
    (hnodup : act.Nodup)
    (hcanon : ∀ d ∈ act, canonicalDeviceOK u tu d = true) :
    migrateCore st u toJid act =
      migrateFinish st ((act.filter (fun d => presB st u d)).map (opOf u tu)) := by
  have hkeysnd : (act.map (fun d => u ++ "." ++ d)).Nodup := by
    refine List.Nodup.map_on ?_ hnodup
    intro a _ b _ hab
    exact str_append_left_cancel hab
  have hpt : ∀ d ∈ act, (migSessionJid st u ∘ fun d => u ++ "." ++ d) d =
      (fun d => if presB st u d then some (mkMigJid u ((jsParseInt d).getD 0)) else none) d :=
    fun d hd => migSessionJid_canonical (hcanon d hd)
  rw [migrateCore, jsSetDedup_of_nodup _ hkeysnd, List.filterMap_map,
    filterMap_congr_mem _ _ act hpt, filterMap_if_eq_map_filter, mapExcept_map,
    mapExcept_ok_of_forall _ (opOf u tu) _
      (fun d hd => migBuildOp_ok hU hTU hto htu (hcanon d (List.mem_of_mem_filter hd)))]

/-- The device list the migrateSession transaction operates on: the persisted
list augmented with the source device, filtered by the migrated-session
cache. -/
def migActiveDevices (st : RepoState) (u : String) (fromDev : Option Nat)
    (ds : List String) : List String :=
  (if ds.contains (toString (fromDev.getD 0)) then ds
    else ds ++ [toString (fromDev.getD 0)]).filter
    (fun device => ¬ st.migratedCache (u ++ "." ++ device))

theorem migrateSession_reduces (st : RepoState) (fromJid toJid : String)
    (fdec : DecodedJid) (ds : List String)
    (hne : fromJid ≠ "")
    (hlid : isLidUser toJid = true ∨ isHostedLidUser toJid = true)
    (hpn : isPnUser fromJid = true ∨ isHostedPnUser fromJid = true)
    (hdecf : jidDecode fromJid = some fdec)
    (hdl : st.deviceListCol fdec.user = some ds) :
    migrateSession st fromJid toJid =
      migrateCore st fdec.user toJid (migActiveDevices st fdec.user fdec.device ds) := by
  have hcond : ¬(fromJid = "" ∨ (¬isLidUser toJid = true ∧ ¬isHostedLidUser toJid = true)) := by
    rcases hlid with h | h <;> simp [hne, h]
  have hpn' : ¬(¬isPnUser fromJid = true ∧ ¬isHostedPnUser fromJid = true) := by
    rcases hpn with h | h <;> simp [h]
  simp only [migrateSession]
  rw [if_neg hcond, if_neg hpn']
  simp only [hdecf, hdl]
  rfl

/-! ## C1: migration counts -/

/-- C1 counterexample: in the scenario with persisted device list 0,1,2 for
user 7, open sessions exactly at devices 0 and 2 and an empty migrated
cache, migrateSession returns migrated 2, skipped 0, total 2 — not the
claimed migrated 2, skipped 1, total 3: the session-less device 1 is dropped
before the operation list is built, so it is neither counted in total nor
skipped. -/
theorem migrateSession_scenario_counterexample :
    (migrateSession migScenarioState "7@s.whatsapp.net" "8@lid").1 =
      .ok { migrated := 2, skipped := 0, total := 2 } ∧
    (migrateSession migScenarioState "7@s.whatsapp.net" "8@lid").1 ≠
      .ok { migrated := 2, skipped := 1, total := 3 } := by
  refine ⟨rfl, ?_⟩
  intro h
  rw [show (migrateSession migScenarioState "7@s.whatsapp.net" "8@lid").1 =
      .ok { migrated := 2, skipped := 0, total := 2 } from rfl] at h
  have h2 := congrArg MigrateResult.total (Except.ok.inj h)
  exact absurd h2 (by decide)

/-- C1 (amended): for a validated migrateSession call over canonical device
entries, the returned counts are migrated = the pre-state's number of active
devices with an open session, total = the number of active devices with a
stored session record (device entries with no stored session are dropped
before the operation list is built and appear in neither total nor skipped),
and skipped = total minus migrated. In particular the pre-state's count of
open sessions equals the migrated count. -/
theorem migrateSession_counts_amended (st : RepoState) (fromJid toJid : String)
    (fdec tdec : DecodedJid) (ds act : List String)
    (hne : fromJid ≠ "")
    (hlid : isLidUser toJid = true ∨ isHostedLidUser toJid = true)
    (hpn : isPnUser fromJid = true ∨ isHostedPnUser fromJid = true)
    (hdecf : jidDecode fromJid = some fdec)
    (hdl : st.deviceListCol fdec.user = some ds)
    (hact : act = migActiveDevices st fdec.user fdec.device ds)
    (hU : fdec.user ≠ "") (hTU : tdec.user ≠ "")
    (hto : jidDecode toJid = some tdec)
    (hnodup : act.Nodup)
    (hcanon : ∀ d ∈ act, canonicalDeviceOK fdec.user tdec.user d = true)
    (hcross : ∀ d ∈ act, ∀ d' ∈ act, fdec.user ++ "." ++ d ≠ lidKeyOf tdec.user d') :
    (migrateSession st fromJid toJid).1 =
      .ok { migrated := act.countP (fun d => openB st fdec.user d),
            skipped := act.countP (fun d => presB st fdec.user d) -
              act.countP (fun d => openB st fdec.user d),
            total := act.countP (fun d => presB st fdec.user d) } := by
  rw [migrateSession_reduces st fromJid toJid fdec ds hne hlid hpn hdecf hdl, ← hact,
    migrateCore_char st fdec.user tdec.user toJid tdec hU hTU hto rfl act hnodup hcanon]
  obtain ⟨st', trace, heq, -, -, -⟩ :=
    migrateFinish_char st fdec.user tdec.user act hnodup hcanon hcross
  rw [heq]

/-- C1 witness: the amended theorem instantiated at the spec scenario gives
migrated 2, skipped 0, total 2. -/
theorem migrateSession_counts_amended_witness :
    (migrateSession migScenarioState "7@s.whatsapp.net" "8@lid").1 =
      .ok { migrated := 2, skipped := 0, total := 2 } := by
  have h := migrateSession_counts_amended migScenarioState "7@s.whatsapp.net" "8@lid"
    { user := "7", device := none, server := "s.whatsapp.net", domainType := 0 }
    { user := "8", device := none, server := "lid", domainType := 1 }
    ["0", "1", "2"] ["0", "1", "2"] (by decide) (Or.inl (by decide)) (Or.inl (by decide))
    (by decide) (by decide) (by decide) (by decide) (by decide) (by decide) (by decide)
    (by decide) (by decide)
  exact h.trans (by rfl)

/-! ## C2: atomic single-batch migration write -/

/-- C2: for a validated migrateSession call over canonical device entries,
every active device with an open session ends with its PN-addressed session
nulled and its LID-addressed session present in the post-state; when anything
is written at all, every session write (all LID stores and all PN deletes)
sits inside the single setSessions batch that heads the trace, and all
migrated-cache marks come strictly after it. -/
theorem migrateSession_atomic_single_batch (st : RepoState) (fromJid toJid : String)
    (fdec tdec : DecodedJid) (ds act : List String)
    (hne : fromJid ≠ "")
    (hlid : isLidUser toJid = true ∨ isHostedLidUser toJid = true)
    (hpn : isPnUser fromJid = true ∨ isHostedPnUser fromJid = true)
    (hdecf : jidDecode fromJid = some fdec)
    (hdl : st.deviceListCol fdec.user = some ds)
    (hact : act = migActiveDevices st fdec.user fdec.device ds)
    (hU : fdec.user ≠ "") (hTU : tdec.user ≠ "")
    (hto : jidDecode toJid = some tdec)
    (hnodup : act.Nodup)
    (hcanon : ∀ d ∈ act, canonicalDeviceOK fdec.user tdec.user d = true)
    (hcross : ∀ d ∈ act, ∀ d' ∈ act, fdec.user ++ "." ++ d ≠ lidKeyOf tdec.user d') :
    ∃ (res : MigrateResult) (st' : RepoState) (trace : List StoreEvent),
      migrateSession st fromJid toJid = (.ok res, st', trace) ∧
      (∀ d ∈ act, openB st fdec.user d = true →
          st'.sessionCol (fdec.user ++ "." ++ d) = none ∧
          st'.sessionCol (lidKeyOf tdec.user d) ≠ none) ∧
      (act.countP (fun d => openB st fdec.user d) = 0 → trace = []) ∧
      (0 < act.countP (fun d => openB st fdec.user d) →
        ∃ (ups : List (String × Option SessionRecord)) (keys : List String),
          trace = StoreEvent.setSessions ups :: keys.map StoreEvent.cacheMigrated ∧
          ∀ d ∈ act, openB st fdec.user d = true →
            lookupLast ups (fdec.user ++ "." ++ d) = some none ∧
            lookupLast ups (lidKeyOf tdec.user d) =
              some (st.sessionCol (fdec.user ++ "." ++ d))) := by
  rw [migrateSession_reduces st fromJid toJid fdec ds hne hlid hpn hdecf hdl, ← hact,
    migrateCore_char st fdec.user tdec.user toJid tdec hU hTU hto rfl act hnodup hcanon]
  obtain ⟨st', trace, heq, hsess, hzero, hpos⟩ :=
    migrateFinish_char st fdec.user tdec.user act hnodup hcanon hcross
  refine ⟨_, st', trace, heq, ?_, fun hz => (hzero hz).1, hpos⟩
  intro d hd hod
  obtain ⟨h1, h2⟩ := hsess d hd hod
  refine ⟨h1, ?_⟩
  rw [h2]
  rw [openB] at hod
  cases hsc : st.sessionCol (fdec.user ++ "." ++ d) with
  | none => rw [hsc] at hod; exact absurd hod (by simp)
  | some s => simp

/-- C2 witness: the atomicity theorem instantiated at the spec scenario. -/
theorem migrateSession_atomic_single_batch_witness :
    ∃ (res : MigrateResult) (st' : RepoState) (trace : List StoreEvent),
      migrateSession migScenarioState "7@s.whatsapp.net" "8@lid" = (.ok res, st', trace) ∧
      (∀ d ∈ (["0", "1", "2"] : List String), openB migScenarioState "7" d = true →
          st'.sessionCol ("7" ++ "." ++ d) = none ∧
          st'.sessionCol (lidKeyOf "8" d) ≠ none) ∧
      (List.countP (fun d => openB migScenarioState "7" d) ["0", "1", "2"] = 0 →
        trace = []) ∧
      (0 < List.countP (fun d => openB migScenarioState "7" d) ["0", "1", "2"] →
        ∃ (ups : List (String × Option SessionRecord)) (keys : List String),
          trace = StoreEvent.setSessions ups :: keys.map StoreEvent.cacheMigrated ∧
          ∀ d ∈ (["0", "1", "2"] : List String), openB migScenarioState "7" d = true →
            lookupLast ups ("7" ++ "." ++ d) = some none ∧
            lookupLast ups (lidKeyOf "8" d) =
              some (migScenarioState.sessionCol ("7" ++ "." ++ d))) :=
  migrateSession_atomic_single_batch migScenarioState "7@s.whatsapp.net" "8@lid"
    { user := "7", device := none, server := "s.whatsapp.net", domainType := 0 }
    { user := "8", device := none, server := "lid", domainType := 1 }
    ["0", "1", "2"] ["0", "1", "2"] (by decide) (Or.inl (by decide)) (Or.inl (by decide))
    (by decide) (by decide) (by decide) (by decide) (by decide) (by decide) (by decide)
    (by decide) (by decide)
